import Mathlib

/-!
# A shallow embedding of `server.js`

The server keeps its records in MongoDB collections and its attachments in
directories under `uploads/`.  A collection is embedded as the list of its
documents in insertion order, a directory as the list of the file names it
holds, and every route handler as a pure function from the state before the
request to the response and the state after it.

* `ObjectId`s are natural numbers; they range over well-formed ids only.
* A `Date` is the number of milliseconds since the epoch.
* The clock, the fresh id of an inserted document, the random number of the
  certificate file name, `path.extname` and the outcome of the geolocation
  call are inputs of the handlers that use them.
-/

namespace Khalid

/-! ## Schemas -/

abbrev ObjectId := Nat

abbrev Date := Int

/-- Document of `albumSchema`. -/
structure Album where
  _id : ObjectId
  name : String
  thumbnail : String
  date : Date
  deriving DecidableEq, Repr

/-- Document of `imageSchema`. -/
structure Image where
  _id : ObjectId
  filename : String
  album : String
  date : Date
  deriving DecidableEq, Repr

/-- Document of `videoSchema`. -/
structure Video where
  _id : ObjectId
  title : String
  youtubeLink : String
  addedAt : Date
  deriving DecidableEq, Repr

/-- Document of `blogSchema`. -/
structure Blog where
  _id : ObjectId
  title : String
  description : String
  image : String
  createdAt : Date
  deriving DecidableEq, Repr

/-- Document of `resumeSchema`. -/
structure Resume where
  _id : ObjectId
  heading : String
  image : String
  createdAt : Date
  deriving DecidableEq, Repr

/-- Document of `bookSchema`. -/
structure Book where
  _id : ObjectId
  name : String
  link : String
  image : String
  createdAt : Date
  deriving DecidableEq, Repr

/-- Document of `certificateSchema`. -/
structure Certificate where
  _id : ObjectId
  title : String
  image : String
  createdAt : Date
  deriving DecidableEq, Repr

/-- Document of `visitorSchema`; `country` is `none` for a stored `null`. -/
structure Visitor where
  _id : ObjectId
  ip : Option String
  country : Option String
  visitedAt : Date
  deriving DecidableEq, Repr

/-- Document of `articleSchema`. -/
structure Article where
  _id : ObjectId
  title : String
  thumbnail : String
  date : Date
  deriving DecidableEq, Repr

/-- Document of `articleImageSchema`. -/
structure ArticleImage where
  _id : ObjectId
  filename : String
  article : String
  date : Date
  deriving DecidableEq, Repr

/-- Document of `todoSchema`. -/
structure Todo where
  _id : ObjectId
  text : String
  completed : Bool
  deriving DecidableEq, Repr

/-! ## Collection primitives -/

/-- The accumulator step of `$group` with `count: { $sum: 1 }`: the group of
key `k` gains one, or is opened with count one. -/
def bump {κ : Type} [DecidableEq κ] (k : κ) : List (κ × Nat) → List (κ × Nat)
  | [] => [(k, 1)]
  | (k', n) :: rest => if k' = k then (k', n + 1) :: rest else (k', n) :: bump k rest

/-- Stage `$group: { _id: <key>, count: { $sum: 1 } }` run over the keys of the
documents of a collection. -/
def groupCount {κ : Type} [DecidableEq κ] (keys : List κ) : List (κ × Nat) :=
  keys.foldl (fun acc k => bump k acc) []

/-- Stage `$sort: { count: -1 }`. -/
def sortByCountDesc {κ : Type} (data : List (κ × Nat)) : List (κ × Nat) :=
  data.insertionSort (fun a b => b.2 ≤ a.2)

/-- Cursor modifier `.sort({ <field>: -1 })` on a date field. -/
def sortByDateDesc {α : Type} (key : α → Date) (docs : List α) : List α :=
  docs.insertionSort (fun a b => key b ≤ key a)

/-- The JavaScript expression `x || d` on a string that may be null. -/
def orDefault (x : Option String) (d : String) : String :=
  match x with
  | none => d
  | some s => if s = "" then d else s

/-- The JavaScript test `!x` on a form field that may be absent. -/
def falsy (x : Option String) : Bool :=
  match x with
  | none => true
  | some s => s == ""

/-! ## Analytics -/

/-- Operator `$dayOfWeek` (UTC): 1 for Sunday up to 7 for Saturday.  Day 0 of
the epoch was a Thursday. -/
def dayOfWeek (t : Date) : Nat :=
  ((t / 86400000 + 4) % 7).toNat + 1

/-- Labels of the bar chart. -/
def weekdays : List String := ["Sun", "Mon", "Tue", "Wed", "Thu", "Fri", "Sat"]

/-- Result of a chart route, `{ labels, values }`. -/
structure Chart where
  labels : List String
  values : List Nat
  deriving DecidableEq, Repr

/-- Route `GET /api/day-data`.  The index `d._id - 1` is always below 7. -/
def dayData (visitors : List Visitor) : Chart :=
  let data := groupCount (visitors.map (fun v => dayOfWeek v.visitedAt))
  let counts := data.foldl (fun counts d => counts.set (d.1 - 1) d.2) (List.replicate 7 0)
  { labels := weekdays, values := counts }

/-- The `$cond` that computes the `_id` of the country groups. -/
def countryKey (country : Option String) : Option String :=
  if country = none ∨ country = some "" ∨ country = some "India" then some "India" else country

/-- Route `GET /api/country-data`. -/
def countryData (visitors : List Visitor) : Chart :=
  let data := sortByCountDesc (groupCount (visitors.map (fun v => countryKey v.country)))
  { labels := data.map (fun item => orDefault item.1 "India"),
    values := data.map (fun item => item.2) }

/-- The bucket of a visitor record as the specification words it: null, the
empty string and "India" share the bucket "India", any other country has its
own. -/
def bucketLabel : Option String → String
  | none => "India"
  | some c => if c = "" ∨ c = "India" then "India" else c

/-- Total of the counts that a list of groups records for key `k`. -/
def weight {κ : Type} [DecidableEq κ] (data : List (κ × Nat)) (k : κ) : Nat :=
  ((data.filter (fun p => p.1 = k)).map (fun p => p.2)).sum


/-! ## Upload directories -/

/-- The directories that hold attachments: `uploads/` itself and its
subdirectories `blogs`, `resumes`, `books`, `certificates`, `articles` and
`articleimages`. -/
inductive Dir where
  | uploads
  | blogs
  | resumes
  | books
  | certificates
  | articles
  | articleimages
  deriving DecidableEq, Repr

/-- The files on disk, each as its directory and its name. -/
abbrev Files := List (Dir × String)

/-- Call `fs.existsSync(path.join(dir, name))`. -/
def existsSync (files : Files) (dir : Dir) (name : String) : Bool :=
  decide ((dir, name) ∈ files)

/-- Call `fs.unlinkSync(path.join(dir, name))` on a file that exists. -/
def unlinkSync (files : Files) (dir : Dir) (name : String) : Files :=
  files.filter (fun p => decide (p ≠ (dir, name)))

/-- The disk storage engine writing a payload at `dir/name`; a file of that
name is overwritten. -/
def writeFile (files : Files) (dir : Dir) (name : String) : Files :=
  if (dir, name) ∈ files then files else files ++ [(dir, name)]

/-- The guarded removal `if (fs.existsSync(p)) fs.unlinkSync(p)`. -/
def removeIfExists (files : Files) (dir : Dir) (name : String) : Files :=
  if existsSync files dir name then unlinkSync files dir name else files

/-! ## State, requests and responses -/

/-- The collections of the database and the files on disk. -/
structure Store where
  albums : List Album
  images : List Image
  videos : List Video
  blogs : List Blog
  resumes : List Resume
  books : List Book
  certificates : List Certificate
  visitors : List Visitor
  articles : List Article
  articleImages : List ArticleImage
  todos : List Todo
  files : Files
  deriving DecidableEq, Repr

/-- A store with no record and no file. -/
def Store.empty : Store :=
  { albums := [], images := [], videos := [], blogs := [], resumes := [], books := [],
    certificates := [], visitors := [], articles := [], articleImages := [], todos := [],
    files := [] }

/-- The unique index on `_id` that every collection carries. -/
def Store.uniqueIds (s : Store) : Prop :=
  (s.albums.map (fun d => d._id)).Nodup ∧ (s.images.map (fun d => d._id)).Nodup ∧
  (s.videos.map (fun d => d._id)).Nodup ∧ (s.blogs.map (fun d => d._id)).Nodup ∧
  (s.resumes.map (fun d => d._id)).Nodup ∧ (s.books.map (fun d => d._id)).Nodup ∧
  (s.certificates.map (fun d => d._id)).Nodup ∧ (s.visitors.map (fun d => d._id)).Nodup ∧
  (s.articles.map (fun d => d._id)).Nodup ∧ (s.articleImages.map (fun d => d._id)).Nodup ∧
  (s.todos.map (fun d => d._id)).Nodup

/-- Body of a response. -/
inductive Body where
  /-- Sent by `res.send(text)`. -/
  | text (s : String)
  /-- Sent by `res.json({ message })`. -/
  | message (s : String)
  /-- Sent by `res.json({ error })`. -/
  | error (s : String)
  /-- Sent by `res.json(todo)`. -/
  | todo (t : Todo)
  /-- Sent by `res.json({ total, today, month })`. -/
  | counts (total today month : Nat)
  /-- An error that reached the default error handler of Express, which
  answers with status 500. -/
  | unhandled (message : String)
  deriving DecidableEq, Repr

/-- Status and body of a response; `res.send` and `res.json` without
`res.status` answer with 200. -/
structure Response where
  status : Nat
  body : Body
  deriving DecidableEq, Repr

/-- What a handler reads from outside the store. -/
structure Env where
  /-- Value of `Date.now()` when the storage engine names an upload. -/
  uploadTime : Nat
  /-- Value of `new Date()`, or of the schema default `Date.now`, when the
  document is built. -/
  now : Date
  /-- The `_id` that the driver gives the inserted document. -/
  newId : ObjectId
  /-- Value of `Math.round(Math.random() * 1E9)`. -/
  random : Nat
  deriving DecidableEq, Repr

/-- The file part of a multipart request, carried under the field name that
the route passes to `single`. -/
structure Upload where
  originalname : String
  deriving DecidableEq, Repr

/-- What `getClientIp` reads of a request. -/
structure Request where
  /-- Header `x-forwarded-for`. -/
  xForwardedFor : Option String
  /-- Property `req.socket.remoteAddress`. -/
  remoteAddress : Option String
  deriving DecidableEq, Repr

/-- Outcome of `axios.get` on the geolocation service: it threw, or it
returned data whose `country_name` may be missing. -/
inductive GeoResult where
  | threw
  | data (country_name : Option String)
  deriving DecidableEq, Repr

/-! ## Queries -/

/-- Query `Model.deleteOne(filter)`: the first match is removed. -/
def deleteOne {α : Type} (p : α → Bool) (docs : List α) : List α :=
  docs.eraseP p

/-- Query `Model.deleteMany(filter)`. -/
def deleteMany {α : Type} (p : α → Bool) (docs : List α) : List α :=
  docs.filter (fun d => !p d)

/-- Update sent by `doc.save()` on a loaded document: the first document that
the filter matches is rewritten. -/
def updateOne {α : Type} (p : α → Bool) (f : α → α) : List α → List α
  | [] => []
  | d :: docs => if p d then f d :: docs else d :: updateOne p f docs

/-! ## Storage engines -/

/-- The `filename` function of `storageAlbums`, `storageBlogs`, `storageResume`,
`storageBooks`, `storageArticles` and `storageArticleImages`:
`Date.now() + "-" + file.originalname`. -/
def storedName (t : Nat) (originalname : String) : String :=
  toString t ++ "-" ++ originalname

/-- The `filename` function of `storageCertificate`; the field name is the
`"image"` of `single("image")`, and `path.extname` is an input. -/
def certificateName (extname : String → String) (env : Env) (originalname : String) : String :=
  "image" ++ "-" ++ (toString env.uploadTime ++ "-" ++ toString env.random) ++ extname originalname

/-- Comparison of a character of the pattern with a character of the input
under the flag `i`: both are canonicalised to upper case.  The letters of the
pattern are ASCII, and the canonical form of a character outside ASCII is never
an ASCII letter, so ASCII upper case decides the comparison. -/
def sameLetter (a ch : Char) : Bool :=
  a.toUpper == ch.toUpper

/-- The matcher consuming the characters `pat` from the front of the input:
the rest of the input after them, or `none` when a character differs. -/
def consume : List Char → List Char → Option (List Char)
  | [], rest => some rest
  | _ :: _, [] => none
  | a :: pat, ch :: rest => if sameLetter a ch then consume pat rest else none

/-- An attempt of `/\.(jpg|jpeg|png|gif)$/i` at one start position: the dot,
one of the alternatives, then `$`, the end of the input. -/
def matchHere (chars : List Char) : Bool :=
  ["jpg", "jpeg", "png", "gif"].any (fun alt => consume ('.' :: alt.toList) chars == some [])

/-- The test of `uploadCertificate.fileFilter`,
`file.originalname.match(/\.(jpg|jpeg|png|gif)$/i)`: the pattern is tried at
every start position of the name. -/
def fileFilter (originalname : String) : Bool :=
  originalname.toList.tails.any matchHere

/-- Middleware `multer(storage).single(field)` in front of a handler: a file
part is written to the directory of the storage engine before the handler
runs, and `req.file.filename` is its stored name. -/
def uploadSingle (files : Files) (dir : Dir) (filename : String → String)
    (file : Option Upload) : Files × Option String :=
  match file with
  | none => (files, none)
  | some f => (writeFile files dir (filename f.originalname), some (filename f.originalname))

/-! ## Albums and images -/

/-- Route `POST /create-album` behind `uploadAlbums.single("thumbnail")`. -/
def createAlbum (s : Store) (env : Env) (name : Option String) (file : Option Upload) :
    Response × Store :=
  let up := uploadSingle s.files Dir.uploads (storedName env.uploadTime) file
  let s1 := { s with files := up.1 }
  match name, up.2 with
  | some name, some filename =>
    if name = "" then (⟨400, .text "Missing data"⟩, s1)
    else (⟨200, .text "Album created"⟩,
      { s1 with albums := s1.albums ++ [⟨env.newId, name, filename, env.now⟩] })
  | _, _ => (⟨400, .text "Missing data"⟩, s1)

/-- Entry of the array sent by `GET /albums`. -/
structure AlbumEntry where
  name : String
  thumbnail : String
  imageCount : Nat
  deriving DecidableEq, Repr

/-- Route `GET /albums`. -/
def getAlbums (s : Store) : List AlbumEntry :=
  (sortByDateDesc (fun a => a.date) s.albums).map (fun album =>
    { name := album.name, thumbnail := album.thumbnail,
      imageCount := s.images.countP (fun i => i.album == album.name) })

/-- Route `DELETE /albums/:name`. -/
def deleteAlbum (s : Store) (name : String) : Response × Store :=
  let albums := deleteOne (fun a => a.name == name) s.albums
  let images := s.images.filter (fun i => i.album == name)
  let files := images.foldl (fun files img => removeIfExists files Dir.uploads img.filename) s.files
  (⟨200, .text "Album and images deleted"⟩,
    { s with albums := albums, images := deleteMany (fun i => i.album == name) s.images,
             files := files })

/-- Route `DELETE /images/:id`. -/
def deleteImage (s : Store) (id : ObjectId) : Response × Store :=
  match s.images.find? (fun i => i._id == id) with
  | some image =>
    (⟨200, .text "Image deleted"⟩,
      { s with files := removeIfExists s.files Dir.uploads image.filename,
               images := deleteOne (fun i => i._id == id) s.images })
  | none => (⟨200, .text "Image deleted"⟩, s)

/-! ## Videos -/

/-- Route `DELETE /api/delete-video/:id`. -/
def deleteVideo (s : Store) (id : ObjectId) : Response × Store :=
  match s.videos.find? (fun v => v._id == id) with
  | none => (⟨404, .message "Video not found"⟩, s)
  | some _ =>
    (⟨200, .message "Video deleted successfully"⟩,
      { s with videos := deleteOne (fun v => v._id == id) s.videos })

/-- Route `POST /api/add-video`. -/
def addVideo (s : Store) (env : Env) (title youtubeLink : Option String) : Response × Store :=
  match title, youtubeLink with
  | some title, some youtubeLink =>
    if title = "" ∨ youtubeLink = "" then
      (⟨400, .message "Title and YouTube link are required"⟩, s)
    else
      (⟨200, .message "Video added successfully"⟩,
        { s with videos := s.videos ++ [⟨env.newId, title, youtubeLink, env.now⟩] })
  | _, _ => (⟨400, .message "Title and YouTube link are required"⟩, s)

/-- Route `GET /api/get-videos`: `Video.find()` without a sort, the documents
in the order of the collection. -/
def getVideos (s : Store) : List Video :=
  s.videos

/-! ## Blogs -/

/-- Route `POST /blogs` behind `uploadBlogs.single("image")`. -/
def createBlog (s : Store) (env : Env) (title description : Option String)
    (file : Option Upload) : Response × Store :=
  let up := uploadSingle s.files Dir.blogs (storedName env.uploadTime) file
  let s1 := { s with files := up.1 }
  match title, description, up.2 with
  | some title, some description, some filename =>
    if title = "" ∨ description = "" then (⟨400, .text "Missing fields"⟩, s1)
    else (⟨201, .text "Blog saved"⟩,
      { s1 with blogs := s1.blogs ++ [⟨env.newId, title, description, filename, env.now⟩] })
  | _, _, _ => (⟨400, .text "Missing fields"⟩, s1)

/-- Route `GET /blogs`. -/
def getBlogs (s : Store) : List Blog :=
  sortByDateDesc (fun b => b.createdAt) s.blogs

/-- Route `DELETE /blogs/:id`. -/
def deleteBlog (s : Store) (id : ObjectId) : Response × Store :=
  match s.blogs.find? (fun b => b._id == id) with
  | none => (⟨404, .text "Blog not found"⟩, s)
  | some blog =>
    (⟨200, .text "Blog deleted"⟩,
      { s with files := removeIfExists s.files Dir.blogs blog.image,
               blogs := deleteOne (fun b => b._id == id) s.blogs })

/-! ## Resumes -/

/-- Route `POST /resumes` behind `uploadResume.single("image")`. -/
def createResume (s : Store) (env : Env) (heading : Option String) (file : Option Upload) :
    Response × Store :=
  let up := uploadSingle s.files Dir.resumes (storedName env.uploadTime) file
  let s1 := { s with files := up.1 }
  match heading, up.2 with
  | some heading, some filename =>
    if heading = "" then (⟨400, .text "Missing data"⟩, s1)
    else (⟨200, .text "Resume saved"⟩,
      { s1 with resumes := s1.resumes ++ [⟨env.newId, heading, filename, env.now⟩] })
  | _, _ => (⟨400, .text "Missing data"⟩, s1)

/-- Route `GET /resumes`. -/
def getResumes (s : Store) : List Resume :=
  sortByDateDesc (fun r => r.createdAt) s.resumes

/-- Route `DELETE /resumes/:id`. -/
def deleteResume (s : Store) (id : ObjectId) : Response × Store :=
  match s.resumes.find? (fun r => r._id == id) with
  | none => (⟨404, .text "Resume not found"⟩, s)
  | some resume =>
    (⟨200, .text "Resume deleted"⟩,
      { s with files := removeIfExists s.files Dir.resumes resume.image,
               resumes := deleteOne (fun r => r._id == id) s.resumes })

/-! ## Books -/

/-- Route `POST /books` behind `uploadBooks.single("image")`. -/
def createBook (s : Store) (env : Env) (name link : Option String) (file : Option Upload) :
    Response × Store :=
  let up := uploadSingle s.files Dir.books (storedName env.uploadTime) file
  let s1 := { s with files := up.1 }
  match name, link, up.2 with
  | some name, some link, some filename =>
    if name = "" ∨ link = "" then (⟨400, .text "Missing data"⟩, s1)
    else (⟨201, .text "Book saved"⟩,
      { s1 with books := s1.books ++ [⟨env.newId, name, link, filename, env.now⟩] })
  | _, _, _ => (⟨400, .text "Missing data"⟩, s1)

/-- Route `GET /books`. -/
def getBooks (s : Store) : List Book :=
  sortByDateDesc (fun b => b.createdAt) s.books

/-- Route `DELETE /books/:id`. -/
def deleteBook (s : Store) (id : ObjectId) : Response × Store :=
  match s.books.find? (fun b => b._id == id) with
  | none => (⟨404, .text "Book not found"⟩, s)
  | some book =>
    (⟨200, .text "Book deleted"⟩,
      { s with files := removeIfExists s.files Dir.books book.image,
               books := deleteOne (fun b => b._id == id) s.books })

/-! ## Certificates -/

/-- Route `POST /certificates` behind `uploadCertificate.single("image")`.  A
file part that `fileFilter` rejects makes the middleware pass the error to
`next`, so the handler and its `catch` never run and nothing is stored. -/
def createCertificate (s : Store) (env : Env) (extname : String → String)
    (title : Option String) (file : Option Upload) : Response × Store :=
  if (file.map (fun f => fileFilter f.originalname)) = some false then
    (⟨500, .unhandled "Only image files (jpg, jpeg, png, gif) are allowed!"⟩, s)
  else
    let up := uploadSingle s.files Dir.certificates (certificateName extname env) file
    let s1 := { s with files := up.1 }
    match title, up.2 with
    | some title, some filename =>
      if title = "" then (⟨400, .text "Missing title or image file."⟩, s1)
      else (⟨201, .text "Certificate saved successfully"⟩,
        { s1 with certificates := s1.certificates ++ [⟨env.newId, title, filename, env.now⟩] })
    | _, _ => (⟨400, .text "Missing title or image file."⟩, s1)

/-- Route `GET /certificates`. -/
def getCertificates (s : Store) : List Certificate :=
  sortByDateDesc (fun c => c.createdAt) s.certificates

/-- Route `DELETE /certificates/:id`. -/
def deleteCertificate (s : Store) (id : ObjectId) : Response × Store :=
  match s.certificates.find? (fun c => c._id == id) with
  | none => (⟨404, .text "Certificate not found."⟩, s)
  | some certificate =>
    (⟨200, .text "Certificate deleted successfully."⟩,
      { s with files := removeIfExists s.files Dir.certificates certificate.image,
               certificates := deleteOne (fun c => c._id == id) s.certificates })

/-! ## Visits -/

/-- Helper `getClientIp`. -/
def getClientIp (req : Request) : Option String :=
  if !falsy req.xForwardedFor then
    some (String.mk ((req.xForwardedFor.getD "").toList.takeWhile (fun ch => ch ≠ ',')))
  else if req.remoteAddress = some "::1" ∨ req.remoteAddress = some "127.0.0.1" then
    some "8.8.8.8"
  else req.remoteAddress

/-- Route `POST /api/track-visit`; `startOfDay` and `startOfMonth` are the
local-calendar dates that the handler derives from the clock.  The file never
requires `axios`, so the call of the running server always throws; `geo` keeps
both outcomes of the call. -/
def trackVisit (s : Store) (env : Env) (req : Request) (geo : GeoResult)
    (startOfDay startOfMonth : Date) : Response × Store :=
  let ip := getClientIp req
  let country :=
    match geo with
    | .threw => "Unknown"
    | .data country_name => orDefault country_name "India"
  let visitors := s.visitors ++ [⟨env.newId, ip, some country, env.now⟩]
  let total := visitors.length
  let today := visitors.countP (fun v => decide (startOfDay ≤ v.visitedAt))
  let month := visitors.countP (fun v => decide (startOfMonth ≤ v.visitedAt))
  (⟨200, .counts total today month⟩, { s with visitors := visitors })

/-! ## Articles -/

/-- Route `POST /create-article` behind `uploadArticles.single("thumbnail")`. -/
def createArticle (s : Store) (env : Env) (title : Option String) (file : Option Upload) :
    Response × Store :=
  let up := uploadSingle s.files Dir.articles (storedName env.uploadTime) file
  let s1 := { s with files := up.1 }
  match title, up.2 with
  | some title, some filename =>
    if title = "" then (⟨400, .text "Missing title or thumbnail"⟩, s1)
    else (⟨200, .text "Article created"⟩,
      { s1 with articles := s1.articles ++ [⟨env.newId, title, filename, env.now⟩] })
  | _, _ => (⟨400, .text "Missing title or thumbnail"⟩, s1)

/-- Entry of the array sent by `GET /articles`. -/
structure ArticleEntry where
  title : String
  thumbnail : String
  imageCount : Nat
  deriving DecidableEq, Repr

/-- Route `GET /articles`. -/
def getArticles (s : Store) : List ArticleEntry :=
  (sortByDateDesc (fun a => a.date) s.articles).map (fun article =>
    { title := article.title, thumbnail := article.thumbnail,
      imageCount := s.articleImages.countP (fun i => i.article == article.title) })

/-- Route `DELETE /articles/:title`. -/
def deleteArticle (s : Store) (title : String) : Response × Store :=
  let files1 :=
    match s.articles.find? (fun a => a.title == title) with
    | some article => removeIfExists s.files Dir.articles article.thumbnail
    | none => s.files
  let articles := deleteOne (fun a => a.title == title) s.articles
  let images := s.articleImages.filter (fun i => i.article == title)
  let files2 :=
    images.foldl (fun files img => removeIfExists files Dir.articleimages img.filename) files1
  (⟨200, .text "Article and all related images deleted"⟩,
    { s with articles := articles,
             articleImages := deleteMany (fun i => i.article == title) s.articleImages,
             files := files2 })

/-! ## Todos -/

/-- Route `DELETE /api/todos/:id`. -/
def deleteTodo (s : Store) (id : ObjectId) : Response × Store :=
  (⟨200, .message "Todo deleted"⟩, { s with todos := deleteOne (fun t => t._id == id) s.todos })

/-- Route `PUT /api/todos/:id`. -/
def toggleTodo (s : Store) (id : ObjectId) : Response × Store :=
  match s.todos.find? (fun t => t._id == id) with
  | none => (⟨404, .error "Todo not found"⟩, s)
  | some todo =>
    let todo1 := { todo with completed := !todo.completed }
    (⟨200, .todo todo1⟩,
      { s with todos := updateOne (fun t => t._id == todo1._id)
                 (fun t => { t with completed := todo1.completed }) s.todos })

/-! ## Predicates of the statements -/

/-- Between `s` and `t` no collection changed, and the disk of `t` holds what
the disk of `s` held plus, when the request carried a file part, that part
under its stored name in `dir`. -/
def OnlyUploadStored (s t : Store) (dir : Dir) (filename : String → String)
    (file : Option Upload) : Prop :=
  { t with files := s.files } = s ∧
  (file = none → t.files = s.files) ∧
  (∀ f, file = some f →
    ∀ p, p ∈ t.files ↔ p ∈ s.files ∨ p = (dir, filename f.originalname))

/-- A small store at which the statements with hypotheses are instantiated:
two blogs, the image of the second already missing from disk, one record of
every other kind that is deleted by id, and two todos. -/
def sampleStore : Store :=
  { Store.empty with
    blogs := [⟨1, "First", "text", "5-a.jpg", 7⟩, ⟨2, "Second", "text", "6-b.jpg", 8⟩],
    resumes := [⟨1, "CV", "5-cv.png", 7⟩],
    books := [⟨1, "Book", "http://example.org", "5-book.png", 7⟩],
    certificates := [⟨1, "Course", "image-5-42.png", 7⟩],
    videos := [⟨1, "Talk", "http://example.org/v", 7⟩],
    todos := [⟨1, "write", false⟩, ⟨2, "read", true⟩],
    files := [(Dir.blogs, "5-a.jpg"), (Dir.resumes, "5-cv.png"), (Dir.books, "5-book.png"),
      (Dir.certificates, "image-5-42.png")] }

/-- The name `s` ends with the extension `ext` when the two are compared
without regard to case, as the specification words the file filter. -/
def endsWithIgnoreCase (s ext : String) : Bool :=
  (ext.toList.map Char.toUpper).isSuffixOf (s.toList.map Char.toUpper)

/-- The allow-list of the specification: the name ends, case-insensitively,
with one of `.jpg`, `.jpeg`, `.png`, `.gif`. -/
def allowedExtension (s : String) : Bool :=
  [".jpg", ".jpeg", ".png", ".gif"].any (endsWithIgnoreCase s)

/-- The number that decimal digits denote when they are read after the digits
of `acc`. -/
def decimalValue (acc : Nat) (digits : List Char) : Nat :=
  digits.foldl (fun a ch => 10 * a + (ch.toNat - 48)) acc
/-! ## Lemmas on the collection primitives -/

theorem weight_nil {κ : Type} [DecidableEq κ] (k : κ) : weight ([] : List (κ × Nat)) k = 0 := rfl

theorem weight_cons {κ : Type} [DecidableEq κ] (p : κ × Nat) (data : List (κ × Nat)) (k : κ) :
    weight (p :: data) k = (if p.1 = k then p.2 else 0) + weight data k := by
  unfold weight
  by_cases h : p.1 = k <;> simp [List.filter_cons, h]

theorem weight_bump {κ : Type} [DecidableEq κ] (k : κ) (data : List (κ × Nat)) (j : κ) :
    weight (bump k data) j = weight data j + (if k = j then 1 else 0) := by
  induction data with
  | nil => simp [bump, weight_cons, weight_nil]
  | cons p rest ih =>
    obtain ⟨a, n⟩ := p
    by_cases h : a = k
    · subst h
      simp only [bump, if_true, weight_cons]
      split <;> omega
    · simp only [bump, h, if_false, weight_cons, ih]
      omega

theorem keys_bump {κ : Type} [DecidableEq κ] (k : κ) (data : List (κ × Nat)) (j : κ) :
    j ∈ (bump k data).map Prod.fst ↔ j = k ∨ j ∈ data.map Prod.fst := by
  induction data with
  | nil => simp [bump]
  | cons p rest ih =>
    obtain ⟨a, n⟩ := p
    by_cases h : a = k
    · subst h
      simp [bump]
    · simp only [bump, h, if_false, List.map_cons, List.mem_cons, ih]
      tauto

theorem nodup_bump {κ : Type} [DecidableEq κ] (k : κ) (data : List (κ × Nat))
    (h : (data.map Prod.fst).Nodup) : ((bump k data).map Prod.fst).Nodup := by
  induction data with
  | nil => simp [bump]
  | cons p rest ih =>
    obtain ⟨a, n⟩ := p
    rw [List.map_cons, List.nodup_cons] at h
    by_cases hk : a = k
    · subst hk
      simpa [bump] using h
    · simp only [bump, hk, if_false, List.map_cons, List.nodup_cons]
      refine ⟨?_, ih h.2⟩
      rw [keys_bump]
      rintro (h1 | h1)
      · exact hk h1
      · exact h.1 h1

theorem foldl_bump_spec {κ : Type} [DecidableEq κ] (keys : List κ) (acc : List (κ × Nat))
    (h : (acc.map Prod.fst).Nodup) :
    ((keys.foldl (fun acc k => bump k acc) acc).map Prod.fst).Nodup ∧
    (∀ j, weight (keys.foldl (fun acc k => bump k acc) acc) j = weight acc j + keys.countP (fun x => decide (x = j))) ∧
    (∀ j, j ∈ (keys.foldl (fun acc k => bump k acc) acc).map Prod.fst ↔
      j ∈ acc.map Prod.fst ∨ j ∈ keys) := by
  induction keys generalizing acc with
  | nil => simp [h]
  | cons k rest ih =>
    obtain ⟨h1, h2, h3⟩ := ih (bump k acc) (nodup_bump k acc h)
    refine ⟨h1, ?_, ?_⟩
    · intro j
      rw [List.foldl_cons, h2, weight_bump, List.countP_cons]
      simp only [decide_eq_true_eq]
      split_ifs <;> omega
    · intro j
      rw [List.foldl_cons, h3, keys_bump, List.mem_cons]
      tauto

theorem weight_of_mem {κ : Type} [DecidableEq κ] (data : List (κ × Nat))
    (h : (data.map Prod.fst).Nodup) (k : κ) (n : Nat) (hm : (k, n) ∈ data) :
    weight data k = n := by
  induction data with
  | nil => simp at hm
  | cons p rest ih =>
    rw [List.map_cons, List.nodup_cons] at h
    rw [weight_cons]
    rcases List.mem_cons.1 hm with hp | hp
    · subst hp
      have : weight rest k = 0 := by
        unfold weight
        rw [List.filter_eq_nil_iff.2]
        · rfl
        · intro q hq
          have hq1 : q.1 ∈ rest.map Prod.fst := List.mem_map_of_mem Prod.fst hq
          have hne : q.1 ≠ k := fun e => h.1 (by simpa [e] using hq1)
          simpa using hne
      simp [this]
    · have hp1 : k ∈ rest.map Prod.fst := List.mem_map_of_mem Prod.fst hp
      have hne : p.1 ≠ k := fun e => h.1 (by simpa [e] using hp1)
      simp [hne, ih h.2 hp]

theorem weight_of_not_mem {κ : Type} [DecidableEq κ] (data : List (κ × Nat)) (k : κ)
    (h : k ∉ data.map Prod.fst) : weight data k = 0 := by
  unfold weight
  rw [List.filter_eq_nil_iff.2]
  · rfl
  · intro q hq
    have hq1 : q.1 ∈ data.map Prod.fst := List.mem_map_of_mem Prod.fst hq
    have hne : q.1 ≠ k := fun e => h (by simpa [e] using hq1)
    simpa using hne

theorem groupCount_nodup {κ : Type} [DecidableEq κ] (keys : List κ) :
    ((groupCount keys).map Prod.fst).Nodup :=
  (foldl_bump_spec keys [] (by simp)).1

theorem groupCount_weight {κ : Type} [DecidableEq κ] (keys : List κ) (j : κ) :
    weight (groupCount keys) j = keys.countP (fun x => decide (x = j)) := by
  have := (foldl_bump_spec keys [] (by simp)).2.1 j
  simpa [weight_nil] using this

theorem groupCount_keys {κ : Type} [DecidableEq κ] (keys : List κ) (j : κ) :
    j ∈ (groupCount keys).map Prod.fst ↔ j ∈ keys := by
  have := (foldl_bump_spec keys [] (by simp)).2.2 j
  simpa using this

theorem groupCount_mem {κ : Type} [DecidableEq κ] (keys : List κ) (k : κ) (n : Nat)
    (h : (k, n) ∈ groupCount keys) : n = keys.countP (fun x => decide (x = k)) := by
  rw [← groupCount_weight, weight_of_mem _ (groupCount_nodup keys) k n h]

/-! ## Analytics: the two chart routes -/

theorem dayOfWeek_pos (t : Date) : 1 ≤ dayOfWeek t := by
  unfold dayOfWeek
  omega

theorem dayOfWeek_le (t : Date) : dayOfWeek t ≤ 7 := by
  unfold dayOfWeek
  omega

theorem foldl_set_length (data : List (Nat × Nat)) (arr : List Nat) :
    (data.foldl (fun counts d => counts.set (d.1 - 1) d.2) arr).length = arr.length := by
  induction data generalizing arr with
  | nil => rfl
  | cons p rest ih => rw [List.foldl_cons, ih, List.length_set]

theorem foldl_set_getElem? (data : List (Nat × Nat)) (hpos : ∀ p ∈ data, 1 ≤ p.1)
    (hnd : (data.map Prod.fst).Nodup) (arr : List Nat) (i : Nat) (hi : i < arr.length) :
    (data.foldl (fun counts d => counts.set (d.1 - 1) d.2) arr)[i]? =
      if i + 1 ∈ data.map Prod.fst then some (weight data (i + 1)) else arr[i]? := by
  induction data generalizing arr with
  | nil => simp
  | cons p rest ih =>
    obtain ⟨k, n⟩ := p
    rw [List.map_cons, List.nodup_cons] at hnd
    have hk : 1 ≤ k := hpos (k, n) (List.mem_cons_self _ _)
    rw [List.foldl_cons, ih (fun p hp => hpos p (List.mem_cons_of_mem _ hp)) hnd.2 _
      (by rw [List.length_set]; exact hi), weight_cons]
    by_cases hik : k = i + 1
    · subst hik
      have hnot : i + 1 ∉ rest.map Prod.fst := hnd.1
      simp [hnot, weight_of_not_mem rest (i + 1) hnot, hi]
    · have hne : k - 1 ≠ i := by omega
      have hne2 : ¬ (i + 1 = k) := fun e => hik e.symm
      have hmem : i + 1 ∈ k :: rest.map Prod.fst ↔ i + 1 ∈ rest.map Prod.fst := by
        rw [List.mem_cons]
        exact ⟨fun h => h.resolve_left hne2, Or.inr⟩
      simp only [hik, if_false, Nat.zero_add, List.getElem?_set_ne hne, List.map_cons]
      by_cases hm : i + 1 ∈ rest.map Prod.fst
      · rw [if_pos hm, if_pos (hmem.2 hm)]
      · rw [if_neg hm, if_neg (fun h => hm (hmem.1 h))]

/-- C1: the day-of-week breakdown has the labels Sun..Sat in this order and
seven values; the value at index `i` (0 = Sunday) is the number of visitor
records whose `visitedAt` falls on that weekday, which is 0 for a weekday with no
visit; a visit on Sunday 2024-01-07 and one on Wednesday 2024-01-10 give
`[1, 0, 0, 1, 0, 0, 0]`. -/
theorem dayData_counts_by_weekday (visitors : List Visitor) :
    (dayData visitors).labels = ["Sun", "Mon", "Tue", "Wed", "Thu", "Fri", "Sat"] ∧
    (dayData visitors).values.length = 7 ∧
    (∀ i : Fin 7, (dayData visitors).values[i.val]? =
      some (visitors.countP (fun v => dayOfWeek v.visitedAt = i.val + 1))) ∧
    (dayData [⟨1, none, some "France", 1704585600000⟩,
      ⟨2, none, some "France", 1704844800000⟩]).values = [1, 0, 0, 1, 0, 0, 0] := by
  refine ⟨rfl, ?_, ?_, by decide⟩
  · simp [dayData, foldl_set_length]
  · rintro ⟨i, hi⟩
    have hpos : ∀ p ∈ groupCount (visitors.map (fun v => dayOfWeek v.visitedAt)), 1 ≤ p.1 := by
      intro p hp
      have h1 : p.1 ∈ (groupCount (visitors.map (fun v => dayOfWeek v.visitedAt))).map Prod.fst :=
        List.mem_map_of_mem Prod.fst hp
      rw [groupCount_keys, List.mem_map] at h1
      obtain ⟨v, _, hv⟩ := h1
      rw [← hv]
      exact dayOfWeek_pos _
    have hcount : (visitors.map (fun v => dayOfWeek v.visitedAt)).countP
        (fun x => decide (x = i + 1)) =
        visitors.countP (fun v => dayOfWeek v.visitedAt = i + 1) := by
      rw [List.countP_map]
      rfl
    have hzero : (List.replicate 7 0)[i]? = some 0 := by
      interval_cases i <;> rfl
    show (List.foldl _ _ _)[i]? = _
    rw [foldl_set_getElem? _ hpos (groupCount_nodup _) _ _ (by simpa using hi), groupCount_weight, hcount]
    split_ifs with h
    · rfl
    · rw [groupCount_keys] at h
      have h0 : (visitors.map (fun v => dayOfWeek v.visitedAt)).countP
          (fun x => decide (x = i + 1)) = 0 := by
        rw [List.countP_eq_zero]
        intro x hx
        have hne : x ≠ i + 1 := fun e => h (e ▸ hx)
        simpa using hne
      rw [← hcount, h0, hzero]

theorem sortByCountDesc_perm {κ : Type} (data : List (κ × Nat)) :
    (sortByCountDesc data).Perm data :=
  List.perm_insertionSort _ data

theorem sortByCountDesc_sorted {κ : Type} (data : List (κ × Nat)) :
    (sortByCountDesc data).Pairwise (fun a b => b.2 ≤ a.2) := by
  haveI : IsTotal (κ × Nat) (fun a b => b.2 ≤ a.2) := ⟨fun a b => le_total b.2 a.2⟩
  haveI : IsTrans (κ × Nat) (fun a b => b.2 ≤ a.2) := ⟨fun _ _ _ h1 h2 => le_trans h2 h1⟩
  exact List.sorted_insertionSort (fun a b => b.2 ≤ a.2) data

theorem orDefault_countryKey (c : Option String) :
    orDefault (countryKey c) "India" = bucketLabel c := by
  unfold countryKey
  split_ifs with h
  · rcases h with h | h | h <;> subst h <;> simp [orDefault, bucketLabel]
  · match c with
    | none => simp at h
    | some s =>
      have h1 : s ≠ "" := fun e => h (by simp [e])
      have h2 : s ≠ "India" := fun e => h (by simp [e])
      simp [orDefault, bucketLabel, h1, h2]

theorem countryKey_eq_iff (c d : Option String) :
    countryKey c = countryKey d ↔ bucketLabel c = bucketLabel d := by
  constructor
  · intro h
    rw [← orDefault_countryKey, ← orDefault_countryKey, h]
  · intro h
    have key : ∀ x : Option String, countryKey x = some (bucketLabel x) := by
      intro x
      unfold countryKey
      split_ifs with hx
      · rcases hx with hx | hx | hx <;> subst hx <;> simp [bucketLabel]
      · match x with
        | none => simp at hx
        | some s =>
          have h1 : s ≠ "" := fun e => hx (by simp [e])
          have h2 : s ≠ "India" := fun e => hx (by simp [e])
          simp [bucketLabel, h1, h2]
    rw [key, key, h]

theorem countryData_group_mem (visitors : List Visitor) :
    ∀ p ∈ sortByCountDesc (groupCount (visitors.map (fun v => countryKey v.country))),
      ∃ v ∈ visitors, p.1 = countryKey v.country ∧
        p.2 = visitors.countP (fun w => bucketLabel w.country = bucketLabel v.country) := by
  have hperm := sortByCountDesc_perm (groupCount (visitors.map (fun v => countryKey v.country)))
  intro p hp
  have hp1 : p ∈ groupCount (visitors.map (fun v => countryKey v.country)) := hperm.mem_iff.1 hp
  have hk : p.1 ∈ (groupCount (visitors.map (fun v => countryKey v.country))).map Prod.fst :=
    List.mem_map_of_mem Prod.fst hp1
  rw [groupCount_keys, List.mem_map] at hk
  obtain ⟨v, hv, hvk⟩ := hk
  refine ⟨v, hv, hvk.symm, ?_⟩
  rw [groupCount_mem _ p.1 p.2 hp1, ← hvk, List.countP_map]
  apply List.countP_congr
  intro w _
  simp [Function.comp, countryKey_eq_iff]

theorem countryData_labels_nodup (visitors : List Visitor) :
    (countryData visitors).labels.Nodup := by
  have hperm := sortByCountDesc_perm (groupCount (visitors.map (fun v => countryKey v.country)))
  show (List.map _ (sortByCountDesc _)).Nodup
  have hnd : ((sortByCountDesc (groupCount (visitors.map
      (fun v => countryKey v.country)))).map Prod.fst).Nodup :=
    (hperm.map Prod.fst).nodup_iff.2 (groupCount_nodup _)
  refine List.Nodup.map_on ?_ (List.Nodup.of_map Prod.fst hnd)
  intro x hx y hy hxy
  obtain ⟨v, _, hv1, _⟩ := countryData_group_mem visitors x hx
  obtain ⟨w, _, hw1, _⟩ := countryData_group_mem visitors y hy
  have hfst : x.1 = y.1 := by
    rw [hv1, hw1, countryKey_eq_iff, ← orDefault_countryKey, ← orDefault_countryKey,
      ← hv1, ← hw1]
    exact hxy
  exact (List.inj_on_of_nodup_map hnd) hx hy hfst

theorem countryData_zip (visitors : List Visitor) :
    ∀ p ∈ (countryData visitors).labels.zip (countryData visitors).values,
      p.2 = visitors.countP (fun v => bucketLabel v.country = p.1) := by
  intro p hp
  have hz : (countryData visitors).labels.zip (countryData visitors).values =
      (sortByCountDesc (groupCount (visitors.map (fun v => countryKey v.country)))).map
        (fun item => (orDefault item.1 "India", item.2)) := by
    simp [countryData, List.zip_map']
  rw [hz, List.mem_map] at hp
  obtain ⟨q, hq, rfl⟩ := hp
  obtain ⟨v, _, hv1, hv2⟩ := countryData_group_mem visitors q hq
  simp only [hv1, orDefault_countryKey]
  rw [hv2]

theorem countryData_bucket_mem (visitors : List Visitor) :
    ∀ v ∈ visitors, bucketLabel v.country ∈ (countryData visitors).labels := by
  have hperm := sortByCountDesc_perm (groupCount (visitors.map (fun v => countryKey v.country)))
  intro v hv
  show _ ∈ List.map _ (sortByCountDesc _)
  have hk : countryKey v.country ∈
      (groupCount (visitors.map (fun v => countryKey v.country))).map Prod.fst := by
    rw [groupCount_keys]
    exact List.mem_map_of_mem (fun v => countryKey v.country) hv
  rw [List.mem_map] at hk
  obtain ⟨q, hq, hqk⟩ := hk
  rw [List.mem_map]
  exact ⟨q, hperm.mem_iff.2 hq, by rw [hqk, orDefault_countryKey]⟩

theorem countryData_values_sorted (visitors : List Visitor) :
    (countryData visitors).values.Pairwise (fun a b => b ≤ a) := by
  show (List.map _ (sortByCountDesc _)).Pairwise _
  rw [List.pairwise_map]
  exact sortByCountDesc_sorted _

/-- C2: in the country breakdown no label is listed twice, every record is
counted under the label of its bucket (null, the empty string and "India" under
"India", any other country under its own name), the value paired with a label
is the exact number of records of that bucket, and the values are in
descending order; countries `[null, null, "", "France"]` give labels
`["India", "France"]` and values `[3, 1]`. -/
theorem countryData_buckets (visitors : List Visitor) :
    (countryData visitors).labels.Nodup ∧
    (countryData visitors).labels.length = (countryData visitors).values.length ∧
    (∀ p ∈ (countryData visitors).labels.zip (countryData visitors).values,
      p.2 = visitors.countP (fun v => bucketLabel v.country = p.1)) ∧
    (∀ v ∈ visitors, bucketLabel v.country ∈ (countryData visitors).labels) ∧
    (countryData visitors).values.Pairwise (fun a b => b ≤ a) ∧
    countryData [⟨1, none, none, 0⟩, ⟨2, none, none, 5⟩, ⟨3, none, some "", 7⟩,
      ⟨4, none, some "France", 9⟩] = ⟨["India", "France"], [3, 1]⟩ :=
  ⟨countryData_labels_nodup visitors, by simp [countryData], countryData_zip visitors,
    countryData_bucket_mem visitors, countryData_values_sorted visitors, by decide⟩

/-! ## Create requests that fail validation -/

theorem mem_writeFile (files : Files) (dir : Dir) (name : String) (p : Dir × String) :
    p ∈ writeFile files dir name ↔ p ∈ files ∨ p = (dir, name) := by
  unfold writeFile
  split_ifs with h
  · constructor
    · exact Or.inl
    · rintro (h1 | h1)
      · exact h1
      · rw [h1]; exact h
  · simp

theorem onlyUploadStored_uploadSingle (s : Store) (dir : Dir) (filename : String → String)
    (file : Option Upload) :
    OnlyUploadStored s { s with files := (uploadSingle s.files dir filename file).1 }
      dir filename file := by
  refine ⟨rfl, ?_, ?_⟩
  · intro h
    subst h
    rfl
  · intro f h p
    subst h
    exact mem_writeFile s.files dir (filename f.originalname) p

/-- C3, counterexample: a create-album request without a name but with a file
part is refused with status 400 and creates no album, yet the upload
middleware has already written the file, so the files on disk have changed. -/
theorem createAlbum_missing_name_writes_file :
    (createAlbum Store.empty ⟨5, 7, 1, 42⟩ none (some ⟨"a.jpg"⟩)).1.status = 400 ∧
    (createAlbum Store.empty ⟨5, 7, 1, 42⟩ none (some ⟨"a.jpg"⟩)).2.albums = [] ∧
    (createAlbum Store.empty ⟨5, 7, 1, 42⟩ none (some ⟨"a.jpg"⟩)).2.files =
      [(Dir.uploads, "5-a.jpg")] ∧
    (createAlbum Store.empty ⟨5, 7, 1, 42⟩ none (some ⟨"a.jpg"⟩)).2.files ≠
      Store.empty.files := by
  decide

/-- C3, amended: a create request to Album, Blog, Resume, Book, Certificate or
Article in which a required text field (`x`) is missing or empty, or the file
part is missing, leaves every collection unchanged; the disk is unchanged when
the request carried no file part, and otherwise holds in addition exactly that
part, which the upload middleware stored under its generated name before the
handler validated the request; the request is refused with status 400.  For a
certificate whose file part the file filter rejects, nothing at all is stored
(of the status of that request nothing is said). -/
theorem create_missing_field_stores_no_record (s : Store) (env : Env)
    (extname : String → String) (x y : Option String) (file : Option Upload)
    (h : falsy x = true ∨ file = none) :
    ((createAlbum s env x file).1.status = 400 ∧
      OnlyUploadStored s (createAlbum s env x file).2 Dir.uploads
        (storedName env.uploadTime) file) ∧
    ((createBlog s env x y file).1.status = 400 ∧
      OnlyUploadStored s (createBlog s env x y file).2 Dir.blogs
        (storedName env.uploadTime) file) ∧
    ((createBlog s env y x file).1.status = 400 ∧
      OnlyUploadStored s (createBlog s env y x file).2 Dir.blogs
        (storedName env.uploadTime) file) ∧
    ((createResume s env x file).1.status = 400 ∧
      OnlyUploadStored s (createResume s env x file).2 Dir.resumes
        (storedName env.uploadTime) file) ∧
    ((createBook s env x y file).1.status = 400 ∧
      OnlyUploadStored s (createBook s env x y file).2 Dir.books
        (storedName env.uploadTime) file) ∧
    ((createBook s env y x file).1.status = 400 ∧
      OnlyUploadStored s (createBook s env y x file).2 Dir.books
        (storedName env.uploadTime) file) ∧
    ((createArticle s env x file).1.status = 400 ∧
      OnlyUploadStored s (createArticle s env x file).2 Dir.articles
        (storedName env.uploadTime) file) ∧
    (file.map (fun f => fileFilter f.originalname) = some false →
      (createCertificate s env extname x file).2 = s) ∧
    (file.map (fun f => fileFilter f.originalname) ≠ some false →
      (createCertificate s env extname x file).1.status = 400 ∧
      OnlyUploadStored s (createCertificate s env extname x file).2 Dir.certificates
        (certificateName extname env) file) := by
  have hx : x = none ∨ x = some "" ∨ file = none := by
    rcases h with h | h
    · match x, h with
      | none, _ => exact Or.inl rfl
      | some t, h =>
        right; left
        simp only [falsy, beq_iff_eq] at h
        rw [h]
    · exact Or.inr (Or.inr h)
  clear h
  have key := fun dir name => onlyUploadStored_uploadSingle s dir name file
  have eAlbum : createAlbum s env x file = (⟨400, .text "Missing data"⟩,
      { s with files := (uploadSingle s.files Dir.uploads (storedName env.uploadTime) file).1 }) := by
    clear key
    rcases x with _ | t <;> rcases file with _ | f <;> simp_all [createAlbum, uploadSingle]
  have eBlog : ∀ a b : Option String, (a = x ∨ b = x) → createBlog s env a b file =
      (⟨400, .text "Missing fields"⟩,
      { s with files := (uploadSingle s.files Dir.blogs (storedName env.uploadTime) file).1 }) := by
    clear key eAlbum
    intro a b hab
    rcases x with _ | t <;> rcases file with _ | f <;> rcases a with _ | a <;>
      rcases b with _ | b <;> simp_all [createBlog, uploadSingle]
  have eResume : createResume s env x file = (⟨400, .text "Missing data"⟩,
      { s with files := (uploadSingle s.files Dir.resumes (storedName env.uploadTime) file).1 }) := by
    clear key eAlbum eBlog
    rcases x with _ | t <;> rcases file with _ | f <;> simp_all [createResume, uploadSingle]
  have eBook : ∀ a b : Option String, (a = x ∨ b = x) → createBook s env a b file =
      (⟨400, .text "Missing data"⟩,
      { s with files := (uploadSingle s.files Dir.books (storedName env.uploadTime) file).1 }) := by
    clear key eAlbum eBlog eResume
    intro a b hab
    rcases x with _ | t <;> rcases file with _ | f <;> rcases a with _ | a <;>
      rcases b with _ | b <;> simp_all [createBook, uploadSingle]
  have eArticle : createArticle s env x file = (⟨400, .text "Missing title or thumbnail"⟩,
      { s with files := (uploadSingle s.files Dir.articles (storedName env.uploadTime) file).1 }) := by
    clear key eAlbum eBlog eResume eBook
    rcases x with _ | t <;> rcases file with _ | f <;> simp_all [createArticle, uploadSingle]
  refine ⟨?_, ?_, ?_, ?_, ?_, ?_, ?_, ?_, ?_⟩
  · rw [eAlbum]; exact ⟨rfl, key _ _⟩
  · rw [eBlog x y (Or.inl rfl)]; exact ⟨rfl, key _ _⟩
  · rw [eBlog y x (Or.inr rfl)]; exact ⟨rfl, key _ _⟩
  · rw [eResume]; exact ⟨rfl, key _ _⟩
  · rw [eBook x y (Or.inl rfl)]; exact ⟨rfl, key _ _⟩
  · rw [eBook y x (Or.inr rfl)]; exact ⟨rfl, key _ _⟩
  · rw [eArticle]; exact ⟨rfl, key _ _⟩
  · intro hrej
    simp [createCertificate, hrej]
  · intro hacc
    have eCert : createCertificate s env extname x file =
        (⟨400, .text "Missing title or image file."⟩,
        { s with files :=
          (uploadSingle s.files Dir.certificates (certificateName extname env) file).1 }) := by
      clear key eAlbum eBlog eResume eBook eArticle
      unfold createCertificate
      rw [if_neg hacc]
      clear hacc
      rcases x with _ | t <;> rcases file with _ | f <;> simp_all [uploadSingle]
    rw [eCert]; exact ⟨rfl, key _ _⟩

/-- C3, witness: the amended statement at a create-album request that has a
file part and no name. -/
theorem create_missing_field_witness :
    (falsy none = true ∨ (some (⟨"a.jpg"⟩ : Upload)) = none) ∧
    (createAlbum Store.empty ⟨5, 7, 1, 42⟩ none (some ⟨"a.jpg"⟩)).1.status = 400 ∧
    OnlyUploadStored Store.empty
      (createAlbum Store.empty ⟨5, 7, 1, 42⟩ none (some ⟨"a.jpg"⟩)).2 Dir.uploads
      (storedName 5) (some ⟨"a.jpg"⟩) :=
  ⟨Or.inl rfl,
    (create_missing_field_stores_no_record Store.empty ⟨5, 7, 1, 42⟩ (fun _ => ".jpg") none
      (some "t") (some ⟨"a.jpg"⟩) (Or.inl rfl)).1⟩

/-! ## Deletes -/

theorem mem_removeIfExists (files : Files) (dir : Dir) (name : String) (p : Dir × String) :
    p ∈ removeIfExists files dir name ↔ p ∈ files ∧ p ≠ (dir, name) := by
  unfold removeIfExists existsSync unlinkSync
  split_ifs with h
  · simp
  · simp only [decide_eq_true_eq] at h
    constructor
    · intro hp
      exact ⟨hp, fun e => h (e ▸ hp)⟩
    · exact fun hp => hp.1

theorem mem_foldl_removeIfExists {α : Type} (dir : Dir) (name : α → String) (docs : List α)
    (files : Files) (p : Dir × String) :
    p ∈ docs.foldl (fun files d => removeIfExists files dir (name d)) files ↔
      p ∈ files ∧ ∀ d ∈ docs, p ≠ (dir, name d) := by
  induction docs generalizing files with
  | nil => simp
  | cons d rest ih =>
    rw [List.foldl_cons, ih, mem_removeIfExists]
    simp only [List.mem_cons, forall_eq_or_imp]
    tauto

/-- C4: the delete of an album by name completes with status 200, leaves no
Image record whose `album` is that name, and leaves in `uploads` no file named
by an Image record it removed; the delete of an article by title does the same
with the ArticleImage records and the directory `articleimages`. -/
theorem delete_cascades_to_images (s : Store) (n : String) :
    ((deleteAlbum s n).1.status = 200 ∧
      (∀ i ∈ (deleteAlbum s n).2.images, i.album ≠ n) ∧
      (∀ i ∈ s.images, i.album = n →
        (i ∉ (deleteAlbum s n).2.images ∧
          (Dir.uploads, i.filename) ∉ (deleteAlbum s n).2.files))) ∧
    ((deleteArticle s n).1.status = 200 ∧
      (∀ i ∈ (deleteArticle s n).2.articleImages, i.article ≠ n) ∧
      (∀ i ∈ s.articleImages, i.article = n →
        (i ∉ (deleteArticle s n).2.articleImages ∧
          (Dir.articleimages, i.filename) ∉ (deleteArticle s n).2.files))) := by
  refine ⟨⟨rfl, ?_, ?_⟩, ⟨rfl, ?_, ?_⟩⟩
  · intro i hi
    simp only [deleteAlbum, deleteMany, List.mem_filter] at hi
    simpa using hi.2
  · intro i hi hn
    constructor
    · simp [deleteAlbum, deleteMany, hn]
    · show (Dir.uploads, i.filename) ∉ List.foldl
        (fun files (img : Image) => removeIfExists files Dir.uploads img.filename) s.files
        (s.images.filter (fun i => i.album == n))
      rw [mem_foldl_removeIfExists Dir.uploads (fun img : Image => img.filename)]
      rintro ⟨_, h2⟩
      exact h2 i (by simp [hi, hn]) rfl
  · intro i hi
    simp only [deleteArticle, deleteMany, List.mem_filter] at hi
    simpa using hi.2
  · intro i hi hn
    constructor
    · simp [deleteArticle, deleteMany, hn]
    · show (Dir.articleimages, i.filename) ∉ List.foldl
        (fun files (img : ArticleImage) => removeIfExists files Dir.articleimages img.filename) _
        (s.articleImages.filter (fun i => i.article == n))
      rw [mem_foldl_removeIfExists Dir.articleimages (fun img : ArticleImage => img.filename)]
      rintro ⟨_, h2⟩
      exact h2 i (by simp [hi, hn]) rfl

/-- C5, failing input: the store holds the album "Trip" with thumbnail
`5-a.jpg` and that file in `uploads`; the delete of "Trip" removes the album
record and answers 200, and the thumbnail file is still in `uploads`.  The
delete of an article on the same data removes the thumbnail from `articles`. -/
theorem deleteAlbum_keeps_thumbnail :
    (deleteAlbum { Store.empty with
        albums := [⟨1, "Trip", "5-a.jpg", 7⟩], files := [(Dir.uploads, "5-a.jpg")] } "Trip").1.status = 200 ∧
    (deleteAlbum { Store.empty with
        albums := [⟨1, "Trip", "5-a.jpg", 7⟩], files := [(Dir.uploads, "5-a.jpg")] } "Trip").2.albums = [] ∧
    (Dir.uploads, "5-a.jpg") ∈
      (deleteAlbum { Store.empty with
        albums := [⟨1, "Trip", "5-a.jpg", 7⟩], files := [(Dir.uploads, "5-a.jpg")] } "Trip").2.files ∧
    (deleteArticle { Store.empty with
        articles := [⟨1, "Trip", "5-a.jpg", 7⟩], files := [(Dir.articles, "5-a.jpg")] } "Trip").2.articles = [] ∧
    (Dir.articles, "5-a.jpg") ∉
      (deleteArticle { Store.empty with
        articles := [⟨1, "Trip", "5-a.jpg", 7⟩], files := [(Dir.articles, "5-a.jpg")] } "Trip").2.files := by
  decide

/-- The thumbnail of an album survives the delete of the album whenever no
image of the album has the same file name. -/
theorem deleteAlbum_files (s : Store) (n : String) (p : Dir × String) :
    p ∈ (deleteAlbum s n).2.files ↔
      p ∈ s.files ∧ ∀ i ∈ s.images, i.album = n → p ≠ (Dir.uploads, i.filename) := by
  show p ∈ List.foldl
      (fun files (img : Image) => removeIfExists files Dir.uploads img.filename) s.files
      (s.images.filter (fun i => i.album == n)) ↔ _
  rw [mem_foldl_removeIfExists Dir.uploads (fun img : Image => img.filename)]
  simp only [List.mem_filter, beq_iff_eq, and_imp]

theorem find?_id_of_mem {α : Type} (id : α → ObjectId) (docs : List α)
    (h : (docs.map id).Nodup) (d : α) (hd : d ∈ docs) :
    docs.find? (fun x => id x == id d) = some d := by
  induction docs with
  | nil => simp at hd
  | cons a rest ih =>
    rw [List.map_cons, List.nodup_cons] at h
    rcases List.mem_cons.1 hd with e | hr
    · subst e
      simp
    · have hne : id a ≠ id d := fun e => h.1 (e ▸ List.mem_map_of_mem id hr)
      rw [List.find?_cons_of_neg _ (by simpa using hne)]
      exact ih h.2 hr

theorem find?_id_none {α : Type} (id : α → ObjectId) (docs : List α) (i : ObjectId)
    (h : ∀ d ∈ docs, id d ≠ i) : docs.find? (fun x => id x == i) = none := by
  rw [List.find?_eq_none]
  intro d hd
  simpa using h d hd

theorem mem_deleteOne_id {α : Type} (id : α → ObjectId) (docs : List α)
    (h : (docs.map id).Nodup) (d : α) (hd : d ∈ docs) (x : α) :
    x ∈ deleteOne (fun x => id x == id d) docs ↔ x ∈ docs ∧ x ≠ d := by
  unfold deleteOne
  induction docs with
  | nil => simp at hd
  | cons a rest ih =>
    rw [List.map_cons, List.nodup_cons] at h
    rcases List.mem_cons.1 hd with e | hr
    · subst e
      rw [List.eraseP_cons_of_pos (by simp)]
      constructor
      · intro hx
        refine ⟨List.mem_cons_of_mem _ hx, fun e => ?_⟩
        subst e
        exact h.1 (List.mem_map_of_mem id hx)
      · rintro ⟨hx, hne⟩
        exact (List.mem_cons.1 hx).resolve_left hne
    · have hne : id a ≠ id d := fun e => h.1 (e ▸ List.mem_map_of_mem id hr)
      rw [List.eraseP_cons_of_neg (by simpa using hne), List.mem_cons, List.mem_cons, ih h.2 hr]
      constructor
      · rintro (e | ⟨hx, hxd⟩)
        · subst e
          exact ⟨Or.inl rfl, fun e => hne (by rw [e])⟩
        · exact ⟨Or.inr hx, hxd⟩
      · rintro ⟨e | hx, hxd⟩
        · exact Or.inl e
        · exact Or.inr ⟨hx, hxd⟩

theorem id_not_mem_deleteOne {α : Type} (id : α → ObjectId) (docs : List α)
    (h : (docs.map id).Nodup) (d : α) (hd : d ∈ docs) :
    ∀ x ∈ deleteOne (fun x => id x == id d) docs, id x ≠ id d := by
  intro x hx e
  rw [mem_deleteOne_id id docs h d hd] at hx
  have h1 := find?_id_of_mem id docs h d hd
  have h2 := find?_id_of_mem id docs h x hx.1
  rw [e, h1] at h2
  exact hx.2 (Option.some.inj h2).symm

theorem mem_sortByDateDesc {α : Type} (key : α → Date) (docs : List α) (x : α) :
    x ∈ sortByDateDesc key docs ↔ x ∈ docs :=
  (List.perm_insertionSort _ docs).mem_iff

theorem deleteBlog_of_mem (s : Store) (h : s.uniqueIds) (b : Blog) (hb : b ∈ s.blogs) :
    deleteBlog s b._id = (⟨200, .text "Blog deleted"⟩,
      { s with files := removeIfExists s.files Dir.blogs b.image,
               blogs := deleteOne (fun x => x._id == b._id) s.blogs }) := by
  unfold deleteBlog
  rw [find?_id_of_mem (fun x : Blog => x._id) s.blogs h.2.2.2.1 b hb]

theorem deleteResume_of_mem (s : Store) (h : s.uniqueIds) (r : Resume) (hr : r ∈ s.resumes) :
    deleteResume s r._id = (⟨200, .text "Resume deleted"⟩,
      { s with files := removeIfExists s.files Dir.resumes r.image,
               resumes := deleteOne (fun x => x._id == r._id) s.resumes }) := by
  unfold deleteResume
  rw [find?_id_of_mem (fun x : Resume => x._id) s.resumes h.2.2.2.2.1 r hr]

theorem deleteBook_of_mem (s : Store) (h : s.uniqueIds) (b : Book) (hb : b ∈ s.books) :
    deleteBook s b._id = (⟨200, .text "Book deleted"⟩,
      { s with files := removeIfExists s.files Dir.books b.image,
               books := deleteOne (fun x => x._id == b._id) s.books }) := by
  unfold deleteBook
  rw [find?_id_of_mem (fun x : Book => x._id) s.books h.2.2.2.2.2.1 b hb]

theorem deleteCertificate_of_mem (s : Store) (h : s.uniqueIds) (c : Certificate)
    (hc : c ∈ s.certificates) :
    deleteCertificate s c._id = (⟨200, .text "Certificate deleted successfully."⟩,
      { s with files := removeIfExists s.files Dir.certificates c.image,
               certificates := deleteOne (fun x => x._id == c._id) s.certificates }) := by
  unfold deleteCertificate
  rw [find?_id_of_mem (fun x : Certificate => x._id) s.certificates h.2.2.2.2.2.2.1 c hc]

theorem deleteVideo_of_mem (s : Store) (h : s.uniqueIds) (v : Video) (hv : v ∈ s.videos) :
    deleteVideo s v._id = (⟨200, .message "Video deleted successfully"⟩,
      { s with videos := deleteOne (fun x => x._id == v._id) s.videos }) := by
  unfold deleteVideo
  rw [find?_id_of_mem (fun x : Video => x._id) s.videos h.2.2.1 v hv]

/-- C6: with the unique `_id` index in force, the delete by id of a Blog,
Resume, Book or Certificate record that is in the store answers 200, whether
or not its image file was on disk; afterwards the record is absent from the
collection and from the list of the entity, the file named by its `image`
field is absent from the directory of the entity, and every other record of
the entity is still in the collection and in the list. -/
theorem deleteById_removes_record_and_file (s : Store) (h : s.uniqueIds) :
    (∀ b ∈ s.blogs,
      (deleteBlog s b._id).1.status = 200 ∧
      b ∉ (deleteBlog s b._id).2.blogs ∧ b ∉ getBlogs (deleteBlog s b._id).2 ∧
      (Dir.blogs, b.image) ∉ (deleteBlog s b._id).2.files ∧
      ∀ x ∈ s.blogs, x ≠ b →
        x ∈ (deleteBlog s b._id).2.blogs ∧ x ∈ getBlogs (deleteBlog s b._id).2) ∧
    (∀ r ∈ s.resumes,
      (deleteResume s r._id).1.status = 200 ∧
      r ∉ (deleteResume s r._id).2.resumes ∧ r ∉ getResumes (deleteResume s r._id).2 ∧
      (Dir.resumes, r.image) ∉ (deleteResume s r._id).2.files ∧
      ∀ x ∈ s.resumes, x ≠ r →
        x ∈ (deleteResume s r._id).2.resumes ∧ x ∈ getResumes (deleteResume s r._id).2) ∧
    (∀ b ∈ s.books,
      (deleteBook s b._id).1.status = 200 ∧
      b ∉ (deleteBook s b._id).2.books ∧ b ∉ getBooks (deleteBook s b._id).2 ∧
      (Dir.books, b.image) ∉ (deleteBook s b._id).2.files ∧
      ∀ x ∈ s.books, x ≠ b →
        x ∈ (deleteBook s b._id).2.books ∧ x ∈ getBooks (deleteBook s b._id).2) ∧
    (∀ c ∈ s.certificates,
      (deleteCertificate s c._id).1.status = 200 ∧
      c ∉ (deleteCertificate s c._id).2.certificates ∧
      c ∉ getCertificates (deleteCertificate s c._id).2 ∧
      (Dir.certificates, c.image) ∉ (deleteCertificate s c._id).2.files ∧
      ∀ x ∈ s.certificates, x ≠ c →
        x ∈ (deleteCertificate s c._id).2.certificates ∧
        x ∈ getCertificates (deleteCertificate s c._id).2) := by
  refine ⟨?_, ?_, ?_, ?_⟩
  · intro b hb
    have hm := mem_deleteOne_id (fun x : Blog => x._id) s.blogs h.2.2.2.1 b hb
    rw [deleteBlog_of_mem s h b hb]
    refine ⟨rfl, ?_, ?_, ?_, ?_⟩
    · exact fun hx => ((hm b).1 hx).2 rfl
    · rw [getBlogs, mem_sortByDateDesc]
      exact fun hx => ((hm b).1 hx).2 rfl
    · exact fun hx => ((mem_removeIfExists _ _ _ _).1 hx).2 rfl
    · intro x hx hne
      refine ⟨(hm x).2 ⟨hx, hne⟩, ?_⟩
      rw [getBlogs, mem_sortByDateDesc]
      exact (hm x).2 ⟨hx, hne⟩
  · intro b hb
    have hm := mem_deleteOne_id (fun x : Resume => x._id) s.resumes h.2.2.2.2.1 b hb
    rw [deleteResume_of_mem s h b hb]
    refine ⟨rfl, ?_, ?_, ?_, ?_⟩
    · exact fun hx => ((hm b).1 hx).2 rfl
    · rw [getResumes, mem_sortByDateDesc]
      exact fun hx => ((hm b).1 hx).2 rfl
    · exact fun hx => ((mem_removeIfExists _ _ _ _).1 hx).2 rfl
    · intro x hx hne
      refine ⟨(hm x).2 ⟨hx, hne⟩, ?_⟩
      rw [getResumes, mem_sortByDateDesc]
      exact (hm x).2 ⟨hx, hne⟩
  · intro b hb
    have hm := mem_deleteOne_id (fun x : Book => x._id) s.books h.2.2.2.2.2.1 b hb
    rw [deleteBook_of_mem s h b hb]
    refine ⟨rfl, ?_, ?_, ?_, ?_⟩
    · exact fun hx => ((hm b).1 hx).2 rfl
    · rw [getBooks, mem_sortByDateDesc]
      exact fun hx => ((hm b).1 hx).2 rfl
    · exact fun hx => ((mem_removeIfExists _ _ _ _).1 hx).2 rfl
    · intro x hx hne
      refine ⟨(hm x).2 ⟨hx, hne⟩, ?_⟩
      rw [getBooks, mem_sortByDateDesc]
      exact (hm x).2 ⟨hx, hne⟩
  · intro b hb
    have hm := mem_deleteOne_id (fun x : Certificate => x._id) s.certificates
      h.2.2.2.2.2.2.1 b hb
    rw [deleteCertificate_of_mem s h b hb]
    refine ⟨rfl, ?_, ?_, ?_, ?_⟩
    · exact fun hx => ((hm b).1 hx).2 rfl
    · rw [getCertificates, mem_sortByDateDesc]
      exact fun hx => ((hm b).1 hx).2 rfl
    · exact fun hx => ((mem_removeIfExists _ _ _ _).1 hx).2 rfl
    · intro x hx hne
      refine ⟨(hm x).2 ⟨hx, hne⟩, ?_⟩
      rw [getCertificates, mem_sortByDateDesc]
      exact (hm x).2 ⟨hx, hne⟩

theorem sampleStore_uniqueIds : sampleStore.uniqueIds := by
  unfold Store.uniqueIds sampleStore Store.empty
  decide

/-- C6, witness: the statement at the sample store, for its second blog, whose
image file is not on disk. -/
theorem deleteById_removes_record_and_file_witness :
    sampleStore.uniqueIds ∧
    (⟨2, "Second", "text", "6-b.jpg", 8⟩ : Blog) ∈ sampleStore.blogs ∧
    (Dir.blogs, "6-b.jpg") ∉ sampleStore.files ∧
    (deleteBlog sampleStore 2).1.status = 200 ∧
    (⟨2, "Second", "text", "6-b.jpg", 8⟩ : Blog) ∉ (deleteBlog sampleStore 2).2.blogs :=
  ⟨sampleStore_uniqueIds, by decide, by decide,
    ((deleteById_removes_record_and_file sampleStore sampleStore_uniqueIds).1
      ⟨2, "Second", "text", "6-b.jpg", 8⟩ (by decide)).1,
    ((deleteById_removes_record_and_file sampleStore sampleStore_uniqueIds).1
      ⟨2, "Second", "text", "6-b.jpg", 8⟩ (by decide)).2.1⟩

theorem deleteBlog_of_none (s : Store) (id : ObjectId) (h : ∀ b ∈ s.blogs, b._id ≠ id) :
    deleteBlog s id = (⟨404, .text "Blog not found"⟩, s) := by
  unfold deleteBlog
  rw [find?_id_none (fun x : Blog => x._id) s.blogs id h]

theorem deleteResume_of_none (s : Store) (id : ObjectId) (h : ∀ r ∈ s.resumes, r._id ≠ id) :
    deleteResume s id = (⟨404, .text "Resume not found"⟩, s) := by
  unfold deleteResume
  rw [find?_id_none (fun x : Resume => x._id) s.resumes id h]

theorem deleteBook_of_none (s : Store) (id : ObjectId) (h : ∀ b ∈ s.books, b._id ≠ id) :
    deleteBook s id = (⟨404, .text "Book not found"⟩, s) := by
  unfold deleteBook
  rw [find?_id_none (fun x : Book => x._id) s.books id h]

theorem deleteCertificate_of_none (s : Store) (id : ObjectId)
    (h : ∀ c ∈ s.certificates, c._id ≠ id) :
    deleteCertificate s id = (⟨404, .text "Certificate not found."⟩, s) := by
  unfold deleteCertificate
  rw [find?_id_none (fun x : Certificate => x._id) s.certificates id h]

theorem deleteVideo_of_none (s : Store) (id : ObjectId) (h : ∀ v ∈ s.videos, v._id ≠ id) :
    deleteVideo s id = (⟨404, .message "Video not found"⟩, s) := by
  unfold deleteVideo
  rw [find?_id_none (fun x : Video => x._id) s.videos id h]

theorem deleteImage_of_none (s : Store) (id : ObjectId) (h : ∀ i ∈ s.images, i._id ≠ id) :
    deleteImage s id = (⟨200, .text "Image deleted"⟩, s) := by
  unfold deleteImage
  rw [find?_id_none (fun x : Image => x._id) s.images id h]

/-- C7, counterexample: the delete of an image by an id that no Image record
has answers 200 "Image deleted", not 404, and so does the second of two deletes
of the same image. -/
theorem deleteImage_absent_reports_success :
    (∀ i ∈ Store.empty.images, i._id ≠ 3) ∧
    deleteImage Store.empty 3 = (⟨200, .text "Image deleted"⟩, Store.empty) ∧
    (deleteImage Store.empty 3).1.status ≠ 404 ∧
    (deleteImage (deleteImage { Store.empty with images := [⟨3, "5-a.jpg", "Trip", 7⟩] } 3).2
      3).1.status = 200 := by
  decide

/-- C7, amended: the delete by id of a Blog, Resume, Book, Certificate or Video
answers 404 and changes nothing when no record has the id, and the second of
two deletes of the same record answers 404; the delete of an Image by an id
that no record has answers 200 and changes nothing, and the deletes of an Album
by name and of an Article by title answer 200 whether or not a record
matches. -/
theorem delete_unmatched_status (s : Store) (id : ObjectId) (key : String)
    (h : s.uniqueIds) :
    ((∀ b ∈ s.blogs, b._id ≠ id) → (deleteBlog s id).1.status = 404 ∧ (deleteBlog s id).2 = s) ∧
    ((∀ r ∈ s.resumes, r._id ≠ id) →
      (deleteResume s id).1.status = 404 ∧ (deleteResume s id).2 = s) ∧
    ((∀ b ∈ s.books, b._id ≠ id) → (deleteBook s id).1.status = 404 ∧ (deleteBook s id).2 = s) ∧
    ((∀ c ∈ s.certificates, c._id ≠ id) →
      (deleteCertificate s id).1.status = 404 ∧ (deleteCertificate s id).2 = s) ∧
    ((∀ v ∈ s.videos, v._id ≠ id) →
      (deleteVideo s id).1.status = 404 ∧ (deleteVideo s id).2 = s) ∧
    (∀ b ∈ s.blogs, (deleteBlog (deleteBlog s b._id).2 b._id).1.status = 404) ∧
    (∀ r ∈ s.resumes, (deleteResume (deleteResume s r._id).2 r._id).1.status = 404) ∧
    (∀ b ∈ s.books, (deleteBook (deleteBook s b._id).2 b._id).1.status = 404) ∧
    (∀ c ∈ s.certificates,
      (deleteCertificate (deleteCertificate s c._id).2 c._id).1.status = 404) ∧
    (∀ v ∈ s.videos, (deleteVideo (deleteVideo s v._id).2 v._id).1.status = 404) ∧
    ((∀ i ∈ s.images, i._id ≠ id) →
      (deleteImage s id).1.status = 200 ∧ (deleteImage s id).2 = s) ∧
    (deleteAlbum s key).1.status = 200 ∧
    (deleteArticle s key).1.status = 200 := by
  refine ⟨?_, ?_, ?_, ?_, ?_, ?_, ?_, ?_, ?_, ?_, ?_, rfl, rfl⟩
  · intro hn
    rw [deleteBlog_of_none s id hn]
    exact ⟨rfl, rfl⟩
  · intro hn
    rw [deleteResume_of_none s id hn]
    exact ⟨rfl, rfl⟩
  · intro hn
    rw [deleteBook_of_none s id hn]
    exact ⟨rfl, rfl⟩
  · intro hn
    rw [deleteCertificate_of_none s id hn]
    exact ⟨rfl, rfl⟩
  · intro hn
    rw [deleteVideo_of_none s id hn]
    exact ⟨rfl, rfl⟩
  · intro b hb
    rw [deleteBlog_of_mem s h b hb, deleteBlog_of_none _ _
      (id_not_mem_deleteOne (fun x : Blog => x._id) s.blogs h.2.2.2.1 b hb)]
  · intro r hr
    rw [deleteResume_of_mem s h r hr, deleteResume_of_none _ _
      (id_not_mem_deleteOne (fun x : Resume => x._id) s.resumes h.2.2.2.2.1 r hr)]
  · intro b hb
    rw [deleteBook_of_mem s h b hb, deleteBook_of_none _ _
      (id_not_mem_deleteOne (fun x : Book => x._id) s.books h.2.2.2.2.2.1 b hb)]
  · intro c hc
    rw [deleteCertificate_of_mem s h c hc, deleteCertificate_of_none _ _
      (id_not_mem_deleteOne (fun x : Certificate => x._id) s.certificates h.2.2.2.2.2.2.1 c hc)]
  · intro v hv
    rw [deleteVideo_of_mem s h v hv, deleteVideo_of_none _ _
      (id_not_mem_deleteOne (fun x : Video => x._id) s.videos h.2.2.1 v hv)]
  · intro hn
    rw [deleteImage_of_none s id hn]
    exact ⟨rfl, rfl⟩

/-- C7, witness: the amended statement at the sample store and the id 9, which
no blog has, and for the second delete of its first blog. -/
theorem delete_unmatched_status_witness :
    sampleStore.uniqueIds ∧
    (∀ b ∈ sampleStore.blogs, b._id ≠ 9) ∧
    (deleteBlog sampleStore 9).1.status = 404 ∧
    (deleteBlog (deleteBlog sampleStore 1).2 1).1.status = 404 :=
  ⟨sampleStore_uniqueIds, by decide,
    ((delete_unmatched_status sampleStore 9 "Trip" sampleStore_uniqueIds).1 (by decide)).1,
    (delete_unmatched_status sampleStore 9 "Trip" sampleStore_uniqueIds).2.2.2.2.2.1
      ⟨1, "First", "text", "5-a.jpg", 7⟩ (by decide)⟩

/-- The delete of a todo answers 200 whatever the id. -/
theorem deleteTodo_status (s : Store) (id : ObjectId) : (deleteTodo s id).1.status = 200 :=
  rfl

/-! ## Listings with image counts -/

theorem sortByDateDesc_perm {α : Type} (key : α → Date) (docs : List α) :
    (sortByDateDesc key docs).Perm docs :=
  List.perm_insertionSort _ docs

/-- C8: the album listing has one entry per Album record, carrying its name
and thumbnail, and the `imageCount` of every entry is the number of Image
records whose `album` equals the name of the entry; the article listing has one
entry per Article record, and the `imageCount` of every entry is the number of
ArticleImage records whose `article` equals the title of the entry. -/
theorem listing_imageCount (s : Store) :
    ((getAlbums s).length = s.albums.length ∧
      ((getAlbums s).map (fun e => (e.name, e.thumbnail))).Perm
        (s.albums.map (fun a => (a.name, a.thumbnail))) ∧
      ∀ e ∈ getAlbums s, e.imageCount = s.images.countP (fun i => i.album = e.name)) ∧
    ((getArticles s).length = s.articles.length ∧
      ((getArticles s).map (fun e => (e.title, e.thumbnail))).Perm
        (s.articles.map (fun a => (a.title, a.thumbnail))) ∧
      ∀ e ∈ getArticles s,
        e.imageCount = s.articleImages.countP (fun i => i.article = e.title)) := by
  refine ⟨⟨?_, ?_, ?_⟩, ⟨?_, ?_, ?_⟩⟩
  · rw [getAlbums, List.length_map]
    exact (sortByDateDesc_perm _ _).length_eq
  · rw [getAlbums, List.map_map]
    exact (sortByDateDesc_perm _ s.albums).map _
  · intro e he
    rw [getAlbums, List.mem_map] at he
    obtain ⟨a, _, rfl⟩ := he
    apply List.countP_congr
    intro i _
    simp
  · rw [getArticles, List.length_map]
    exact (sortByDateDesc_perm _ _).length_eq
  · rw [getArticles, List.map_map]
    exact (sortByDateDesc_perm _ s.articles).map _
  · intro e he
    rw [getArticles, List.mem_map] at he
    obtain ⟨a, _, rfl⟩ := he
    apply List.countP_congr
    intro i _
    simp

/-! ## The todo toggle -/

theorem updateOne_id {α : Type} [DecidableEq α] (id : α → ObjectId) (docs : List α)
    (h : (docs.map id).Nodup) (d : α) (hd : d ∈ docs) (f : α → α) :
    updateOne (fun x => id x == id d) f docs = docs.map (fun x => if x = d then f d else x) := by
  induction docs with
  | nil => simp at hd
  | cons a rest ih =>
    rw [List.map_cons, List.nodup_cons] at h
    by_cases e : a = d
    · subst e
      have hrest : rest.map (fun x => if x = a then f a else x) = rest := by
        conv_rhs => rw [← List.map_id rest]
        apply List.map_congr_left
        intro x hx
        have hne : x ≠ a := fun e => h.1 (e ▸ List.mem_map_of_mem id hx)
        simp [hne]
      simp [updateOne, hrest]
    · have hr : d ∈ rest := (List.mem_cons.1 hd).resolve_left (fun e' => e e'.symm)
      have hne : id a ≠ id d := fun e' => h.1 (e' ▸ List.mem_map_of_mem id hr)
      simp [updateOne, hne, e, ih h.2 hr]

theorem toggleTodo_of_mem (s : Store) (h : (s.todos.map (fun x => x._id)).Nodup) (t : Todo)
    (ht : t ∈ s.todos) :
    toggleTodo s t._id = (⟨200, .todo { t with completed := !t.completed }⟩,
      { s with
        todos := s.todos.map
          (fun x => if x = t then { t with completed := !t.completed } else x) }) := by
  unfold toggleTodo
  rw [find?_id_of_mem (fun x : Todo => x._id) s.todos h t ht]
  simp only
  rw [updateOne_id (fun x : Todo => x._id) s.todos h t ht]

/-- C9: with the unique `_id` index in force, the toggle of a todo that is in
the store answers 200 with the todo whose `completed` is negated and whose
`text` and `_id` are kept; in the store exactly that record is replaced by the
toggled one and nothing else changes; a second toggle answers with the original
todo and gives back the original store. -/
theorem toggleTodo_involution (s : Store) (t : Todo) (h : s.uniqueIds) (ht : t ∈ s.todos) :
    (toggleTodo s t._id).1 = ⟨200, .todo ⟨t._id, t.text, !t.completed⟩⟩ ∧
    (toggleTodo s t._id).2 = { s with
      todos := s.todos.map (fun x => if x = t then ⟨t._id, t.text, !t.completed⟩ else x) } ∧
    (toggleTodo (toggleTodo s t._id).2 t._id).1 = ⟨200, .todo t⟩ ∧
    (toggleTodo (toggleTodo s t._id).2 t._id).2 = s := by
  have hn : (s.todos.map (fun x => x._id)).Nodup := h.2.2.2.2.2.2.2.2.2.2
  have e1 := toggleTodo_of_mem s hn t ht
  have hids : ((s.todos.map (fun x => if x = t then
      ({ t with completed := !t.completed } : Todo) else x)).map (fun x => x._id)) =
      s.todos.map (fun x => x._id) := by
    rw [List.map_map]
    apply List.map_congr_left
    intro x _
    by_cases e : x = t <;> simp [e]
  have hmem : ({ t with completed := !t.completed } : Todo) ∈
      s.todos.map (fun x => if x = t then ({ t with completed := !t.completed } : Todo) else x) :=
    List.mem_map.2 ⟨t, ht, by simp⟩
  have e2 := toggleTodo_of_mem
    { s with
      todos := s.todos.map
        (fun x => if x = t then ({ t with completed := !t.completed } : Todo) else x) }
    (by rw [hids]; exact hn) { t with completed := !t.completed } hmem
  have hback : (s.todos.map (fun x => if x = t then
      ({ t with completed := !t.completed } : Todo) else x)).map
      (fun x => if x = ({ t with completed := !t.completed } : Todo) then t else x) = s.todos := by
    rw [List.map_map]
    conv_rhs => rw [← List.map_id s.todos]
    apply List.map_congr_left
    intro x hx
    by_cases e : x = t
    · simp [e]
    · have hx1 : x ≠ ({ t with completed := !t.completed } : Todo) := by
        intro e'
        have hid : x._id = t._id := by rw [e']
        have h1 := find?_id_of_mem (fun x : Todo => x._id) s.todos hn t ht
        have h2 := find?_id_of_mem (fun x : Todo => x._id) s.todos hn x hx
        simp only [hid] at h2
        rw [h1] at h2
        exact e (Option.some.inj h2).symm
      simp [e, hx1]
  refine ⟨?_, ?_, ?_, ?_⟩
  · rw [e1]
  · rw [e1]
  · rw [e1]
    simp only at e2
    rw [e2]
    simp
  · rw [e1]
    simp only at e2
    rw [e2]
    simp only [Bool.not_not]
    rw [hback]

/-- C9, witness: the statement at the sample store and its first todo. -/
theorem toggleTodo_involution_witness :
    sampleStore.uniqueIds ∧ (⟨1, "write", false⟩ : Todo) ∈ sampleStore.todos ∧
    (toggleTodo sampleStore 1).1 = ⟨200, .todo ⟨1, "write", true⟩⟩ ∧
    (toggleTodo (toggleTodo sampleStore 1).2 1).2 = sampleStore :=
  ⟨sampleStore_uniqueIds, by decide,
    (toggleTodo_involution sampleStore ⟨1, "write", false⟩ sampleStore_uniqueIds (by decide)).1,
    (toggleTodo_involution sampleStore ⟨1, "write", false⟩ sampleStore_uniqueIds
      (by decide)).2.2.2⟩

/-! ## Visits whose country lookup fails -/

/-- C10, counterexample: a visit whose geolocation call throws is recorded with
the country "Unknown", not "India", and the country breakdown then has the
label "Unknown" and no label "India". -/
theorem trackVisit_failed_lookup_not_india :
    (trackVisit Store.empty ⟨5, 7, 1, 42⟩ ⟨none, some "203.0.113.9"⟩ .threw 0 0).2.visitors =
      [⟨1, some "203.0.113.9", some "Unknown", 7⟩] ∧
    countryData
      (trackVisit Store.empty ⟨5, 7, 1, 42⟩ ⟨none, some "203.0.113.9"⟩ .threw 0 0).2.visitors =
      ⟨["Unknown"], [1]⟩ ∧
    "India" ∉ (countryData
      (trackVisit Store.empty ⟨5, 7, 1, 42⟩ ⟨none, some "203.0.113.9"⟩
        .threw 0 0).2.visitors).labels := by
  decide

/-- C10, amended: a visit whose geolocation call throws appends a Visitor
record whose country is "Unknown", the initial value of the handler; the
record falls into the bucket "Unknown" of the country breakdown, which is in
the labels and gains one, and the bucket "India" gains nothing.  The sentinel
"India" is recorded when the call returns without a country name. -/
theorem trackVisit_failed_lookup_unknown (s : Store) (env : Env) (req : Request)
    (startOfDay startOfMonth : Date) :
    (trackVisit s env req .threw startOfDay startOfMonth).2.visitors =
      s.visitors ++ [⟨env.newId, getClientIp req, some "Unknown", env.now⟩] ∧
    "Unknown" ∈
      (countryData (trackVisit s env req .threw startOfDay startOfMonth).2.visitors).labels ∧
    (trackVisit s env req .threw startOfDay startOfMonth).2.visitors.countP
        (fun v => bucketLabel v.country = "Unknown") =
      s.visitors.countP (fun v => bucketLabel v.country = "Unknown") + 1 ∧
    (trackVisit s env req .threw startOfDay startOfMonth).2.visitors.countP
        (fun v => bucketLabel v.country = "India") =
      s.visitors.countP (fun v => bucketLabel v.country = "India") ∧
    (trackVisit s env req (.data none) startOfDay startOfMonth).2.visitors =
      s.visitors ++ [⟨env.newId, getClientIp req, some "India", env.now⟩] ∧
    (trackVisit s env req (.data (some "")) startOfDay startOfMonth).2.visitors =
      s.visitors ++ [⟨env.newId, getClientIp req, some "India", env.now⟩] := by
  have hb : bucketLabel (some "Unknown") = "Unknown" := by decide
  refine ⟨rfl, ?_, ?_, ?_, rfl, rfl⟩
  · have hm := countryData_bucket_mem
      (s.visitors ++ [⟨env.newId, getClientIp req, some "Unknown", env.now⟩])
      ⟨env.newId, getClientIp req, some "Unknown", env.now⟩ (by simp)
    rw [hb] at hm
    exact hm
  · show List.countP _ (s.visitors ++ [_]) = _
    rw [List.countP_append]
    simp [hb]
  · show List.countP _ (s.visitors ++ [_]) = _
    rw [List.countP_append]
    have hne : bucketLabel (some "Unknown") ≠ "India" := by decide
    simp [hne]

/-! ## The client address -/

/-- C11, counterexample: a request from the loopback address `::1` that
carries the header `x-forwarded-for: 203.0.113.7` gets that entry, not the
placeholder, and a loopback address written in the header is returned as it
is, so it is the address passed to the geolocation lookup. -/
theorem getClientIp_header_before_loopback :
    getClientIp ⟨some "203.0.113.7", some "::1"⟩ = some "203.0.113.7" ∧
    getClientIp ⟨some "203.0.113.7", some "::1"⟩ ≠ some "8.8.8.8" ∧
    getClientIp ⟨some "127.0.0.1, 10.0.0.1", some "127.0.0.1"⟩ = some "127.0.0.1" := by
  decide

/-- C11, amended: for a request without an `x-forwarded-for` header (absent or
empty) whose remote address is `::1` or `127.0.0.1`, `getClientIp` returns the
placeholder `8.8.8.8`; without the header and with any other remote address it
returns the remote address unchanged; with a non-empty header it returns the
first comma-separated entry of the header, whatever the remote address. -/
theorem getClientIp_cases (req : Request) :
    ((req.xForwardedFor = none ∨ req.xForwardedFor = some "") →
      (req.remoteAddress = some "::1" ∨ req.remoteAddress = some "127.0.0.1") →
      getClientIp req = some "8.8.8.8") ∧
    ((req.xForwardedFor = none ∨ req.xForwardedFor = some "") →
      req.remoteAddress ≠ some "::1" → req.remoteAddress ≠ some "127.0.0.1" →
      getClientIp req = req.remoteAddress) ∧
    (∀ x, req.xForwardedFor = some x → x ≠ "" →
      ∃ entry rest, getClientIp req = some entry ∧ x.toList = entry.toList ++ rest ∧
        ',' ∉ entry.toList ∧ (rest = [] ∨ ∃ r, rest = ',' :: r)) := by
  obtain ⟨xff, ra⟩ := req
  refine ⟨?_, ?_, ?_⟩
  · intro hx hr
    have hf : falsy xff = true := by
      rcases hx with hx | hx <;> subst hx <;> rfl
    simp only [getClientIp, hf, Bool.not_true, Bool.false_eq_true, if_false, if_pos hr]
  · intro hx h1 h2
    have hf : falsy xff = true := by
      rcases hx with hx | hx <;> subst hx <;> rfl
    have hr : ¬ (ra = some "::1" ∨ ra = some "127.0.0.1") := fun h => h.elim h1 h2
    simp only [getClientIp, hf, Bool.not_true, Bool.false_eq_true, if_false, if_neg hr]
  · intro x hx hne
    simp only at hx
    subst hx
    have hf : falsy (some x) = false := by
      simp only [falsy, beq_eq_false_iff_ne, ne_eq]
      exact hne
    refine ⟨String.mk (x.toList.takeWhile (fun ch => ch ≠ ',')),
      x.toList.dropWhile (fun ch => ch ≠ ','), ?_, ?_, ?_, ?_⟩
    · simp [getClientIp, hf]
    · exact (List.takeWhile_append_dropWhile _ _).symm
    · intro hmem
      have := List.mem_takeWhile_imp hmem
      simp at this
    · cases hd : x.toList.dropWhile (fun ch => ch ≠ ',') with
      | nil => exact Or.inl rfl
      | cons a r =>
        right
        have := List.head_dropWhile_not (fun ch => decide (ch ≠ ',')) x.toList (by
          rw [hd]; exact List.cons_ne_nil _ _)
        simp only [hd, List.head_cons] at this
        have ha : a = ',' := by simpa using this
        exact ⟨r, by rw [ha]⟩

/-! ## Order of the lists -/

theorem sortByDateDesc_sorted {α : Type} (key : α → Date) (docs : List α) :
    (sortByDateDesc key docs).Pairwise (fun a b => key b ≤ key a) := by
  haveI : IsTotal α (fun a b => key b ≤ key a) := ⟨fun a b => le_total (key b) (key a)⟩
  haveI : IsTrans α (fun a b => key b ≤ key a) := ⟨fun _ _ _ h1 h2 => le_trans h2 h1⟩
  exact List.sorted_insertionSort (fun a b => key b ≤ key a) docs

/-- The lists of blogs, resumes, books and certificates hold all stored records
of the kind, most recent `createdAt` first, and the listings of albums and
articles are the entries of all stored records, most recent `date` first. -/
theorem lists_sorted_by_date_desc (s : Store) :
    ((getBlogs s).Perm s.blogs ∧
      (getBlogs s).Pairwise (fun a b => b.createdAt ≤ a.createdAt)) ∧
    ((getResumes s).Perm s.resumes ∧
      (getResumes s).Pairwise (fun a b => b.createdAt ≤ a.createdAt)) ∧
    ((getBooks s).Perm s.books ∧
      (getBooks s).Pairwise (fun a b => b.createdAt ≤ a.createdAt)) ∧
    ((getCertificates s).Perm s.certificates ∧
      (getCertificates s).Pairwise (fun a b => b.createdAt ≤ a.createdAt)) ∧
    (∃ docs : List Album, docs.Perm s.albums ∧ docs.Pairwise (fun a b => b.date ≤ a.date) ∧
      (getAlbums s).map (fun e => (e.name, e.thumbnail)) =
        docs.map (fun a => (a.name, a.thumbnail))) ∧
    (∃ docs : List Article, docs.Perm s.articles ∧
      docs.Pairwise (fun a b => b.date ≤ a.date) ∧
      (getArticles s).map (fun e => (e.title, e.thumbnail)) =
        docs.map (fun a => (a.title, a.thumbnail))) := by
  refine ⟨⟨sortByDateDesc_perm _ _, sortByDateDesc_sorted _ _⟩,
    ⟨sortByDateDesc_perm _ _, sortByDateDesc_sorted _ _⟩,
    ⟨sortByDateDesc_perm _ _, sortByDateDesc_sorted _ _⟩,
    ⟨sortByDateDesc_perm _ _, sortByDateDesc_sorted _ _⟩, ?_, ?_⟩
  · refine ⟨sortByDateDesc (fun a => a.date) s.albums, sortByDateDesc_perm _ _,
      sortByDateDesc_sorted _ _, ?_⟩
    rw [getAlbums, List.map_map]
    rfl
  · refine ⟨sortByDateDesc (fun a => a.date) s.articles, sortByDateDesc_perm _ _,
      sortByDateDesc_sorted _ _, ?_⟩
    rw [getArticles, List.map_map]
    rfl

/-- C12, failing input: two videos are added, the first at time 1000 and the
second at time 2000; the list of videos answers them in the order of insertion,
the older first, which is not descending in `addedAt`.  The list of blogs on
the same dates answers the more recent first. -/
theorem getVideos_keeps_insertion_order :
    getVideos (addVideo (addVideo Store.empty ⟨0, 1000, 1, 0⟩ (some "old") (some "u1")).2
      ⟨0, 2000, 2, 0⟩ (some "new") (some "u2")).2 =
      [⟨1, "old", "u1", 1000⟩, ⟨2, "new", "u2", 2000⟩] ∧
    ¬ (getVideos (addVideo (addVideo Store.empty ⟨0, 1000, 1, 0⟩ (some "old") (some "u1")).2
      ⟨0, 2000, 2, 0⟩ (some "new") (some "u2")).2).Pairwise
        (fun a b => b.addedAt ≤ a.addedAt) ∧
    getBlogs (createBlog (createBlog Store.empty ⟨5, 1000, 1, 0⟩ (some "old") (some "text")
      (some ⟨"a.jpg"⟩)).2 ⟨6, 2000, 2, 0⟩ (some "new") (some "text") (some ⟨"b.jpg"⟩)).2 =
      [⟨2, "new", "text", "6-b.jpg", 2000⟩, ⟨1, "old", "text", "5-a.jpg", 1000⟩] := by
  decide

/-! ## The certificate file filter -/

theorem sameLetter_iff (a ch : Char) : sameLetter a ch = true ↔ a.toUpper = ch.toUpper := by
  simp [sameLetter]

theorem consume_eq_some_nil (pat chars : List Char) :
    consume pat chars = some [] ↔ chars.map Char.toUpper = pat.map Char.toUpper := by
  induction pat generalizing chars with
  | nil =>
    cases chars with
    | nil => simp [consume]
    | cons ch rest => simp [consume]
  | cons a pat ih =>
    cases chars with
    | nil => simp [consume]
    | cons ch rest =>
      by_cases h : sameLetter a ch = true
      · have h1 := (sameLetter_iff a ch).1 h
        simp only [consume, h, if_true, ih, List.map_cons, List.cons.injEq, h1, true_and]
      · have h1 : ¬ a.toUpper = ch.toUpper := fun e => h ((sameLetter_iff a ch).2 e)
        have h2 : ¬ ch.toUpper = a.toUpper := fun e => h1 e.symm
        simp [consume, h, h2]

theorem suffix_map_iff {α β : Type} (f : α → β) (l : List α) (q : List β) :
    q <:+ l.map f ↔ ∃ t, t <:+ l ∧ t.map f = q := by
  constructor
  · rintro ⟨pre, hpre⟩
    refine ⟨l.drop pre.length, List.drop_suffix _ _, ?_⟩
    rw [List.map_drop, ← hpre, List.drop_left]
  · rintro ⟨t, ht, rfl⟩
    exact ht.map f

theorem exists_tail_consume (pat : List Char) (l : List Char) :
    (∃ t ∈ l.tails, consume pat t = some []) ↔
      (pat.map Char.toUpper).isSuffixOf (l.map Char.toUpper) = true := by
  rw [List.isSuffixOf_iff_suffix, suffix_map_iff]
  constructor
  · rintro ⟨t, ht, hc⟩
    exact ⟨t, (List.mem_tails _ _).1 ht, (consume_eq_some_nil pat t).1 hc⟩
  · rintro ⟨t, ht, hc⟩
    exact ⟨t, (List.mem_tails _ _).2 ht, (consume_eq_some_nil pat t).2 hc⟩

theorem fileFilter_eq_allowedExtension (s : String) : fileFilter s = allowedExtension s := by
  rw [Bool.eq_iff_iff]
  have e1 := exists_tail_consume ('.' :: "jpg".toList) s.toList
  have e2 := exists_tail_consume ('.' :: "jpeg".toList) s.toList
  have e3 := exists_tail_consume ('.' :: "png".toList) s.toList
  have e4 := exists_tail_consume ('.' :: "gif".toList) s.toList
  have hA : allowedExtension s = true ↔
      ((('.' :: "jpg".toList).map Char.toUpper).isSuffixOf (s.toList.map Char.toUpper) = true ∨
       (('.' :: "jpeg".toList).map Char.toUpper).isSuffixOf (s.toList.map Char.toUpper) = true ∨
       (('.' :: "png".toList).map Char.toUpper).isSuffixOf (s.toList.map Char.toUpper) = true ∨
       (('.' :: "gif".toList).map Char.toUpper).isSuffixOf (s.toList.map Char.toUpper) = true) := by
    simp only [allowedExtension, endsWithIgnoreCase, List.any_cons, List.any_nil, Bool.or_false,
      Bool.or_eq_true]
    rfl
  have hF : fileFilter s = true ↔
      ((∃ t ∈ s.toList.tails, consume ('.' :: "jpg".toList) t = some []) ∨
       (∃ t ∈ s.toList.tails, consume ('.' :: "jpeg".toList) t = some []) ∨
       (∃ t ∈ s.toList.tails, consume ('.' :: "png".toList) t = some []) ∨
       (∃ t ∈ s.toList.tails, consume ('.' :: "gif".toList) t = some [])) := by
    simp only [fileFilter, matchHere, List.any_eq_true, List.any_cons, List.any_nil,
      Bool.or_false, Bool.or_eq_true, beq_iff_eq]
    constructor
    · rintro ⟨t, ht, h | h | h | h⟩
      · exact Or.inl ⟨t, ht, h⟩
      · exact Or.inr (Or.inl ⟨t, ht, h⟩)
      · exact Or.inr (Or.inr (Or.inl ⟨t, ht, h⟩))
      · exact Or.inr (Or.inr (Or.inr ⟨t, ht, h⟩))
    · rintro (⟨t, ht, h⟩ | ⟨t, ht, h⟩ | ⟨t, ht, h⟩ | ⟨t, ht, h⟩)
      · exact ⟨t, ht, Or.inl h⟩
      · exact ⟨t, ht, Or.inr (Or.inl h)⟩
      · exact ⟨t, ht, Or.inr (Or.inr (Or.inl h))⟩
      · exact ⟨t, ht, Or.inr (Or.inr (Or.inr h))⟩
  rw [hF, hA, e1, e2, e3, e4]

/-- C13: the certificate file filter accepts an original name exactly when the
name ends, compared without regard to case, with one of `.jpg`, `.jpeg`, `.png`,
`.gif`; a create-certificate request whose file has any other name is rejected
with the error 'Only image files (jpg, jpeg, png, gif) are allowed!', and it
creates no certificate record and stores nothing. -/
theorem fileFilter_accepts_iff (s : String) :
    (fileFilter s = true ↔
      (endsWithIgnoreCase s ".jpg" = true ∨ endsWithIgnoreCase s ".jpeg" = true ∨
        endsWithIgnoreCase s ".png" = true ∨ endsWithIgnoreCase s ".gif" = true)) ∧
    (fileFilter s = false →
      ∀ (store : Store) (env : Env) (extname : String → String) (title : Option String),
        (createCertificate store env extname title (some ⟨s⟩)).1.body =
          .unhandled "Only image files (jpg, jpeg, png, gif) are allowed!" ∧
        (createCertificate store env extname title (some ⟨s⟩)).2.certificates =
          store.certificates ∧
        (createCertificate store env extname title (some ⟨s⟩)).2 = store) := by
  constructor
  · rw [fileFilter_eq_allowedExtension]
    simp only [allowedExtension, List.any_cons, List.any_nil, Bool.or_false, Bool.or_eq_true]
  · intro h store env extname title
    have e : createCertificate store env extname title (some ⟨s⟩) =
        (⟨500, .unhandled "Only image files (jpg, jpeg, png, gif) are allowed!"⟩, store) := by
      simp [createCertificate, h]
    rw [e]
    exact ⟨rfl, rfl, rfl⟩

/-- C13, witness: the name `notes.txt` is rejected and `Scan.PNG` is accepted. -/
theorem fileFilter_accepts_iff_witness :
    fileFilter "notes.txt" = false ∧ fileFilter "Scan.PNG" = true ∧
    (createCertificate sampleStore ⟨5, 7, 9, 42⟩ (fun _ => ".txt") (some "Course")
      (some ⟨"notes.txt"⟩)).2 = sampleStore :=
  ⟨by decide, by decide,
    ((fileFilter_accepts_iff "notes.txt").2 (by decide) sampleStore ⟨5, 7, 9, 42⟩
      (fun _ => ".txt") (some "Course")).2.2⟩

/-! ## Stored file names -/

theorem digitChar_ne_dash (k : Nat) (h : k < 10) : Nat.digitChar k ≠ '-' := by
  interval_cases k <;> decide

theorem digitChar_value (k : Nat) (h : k < 10) : (Nat.digitChar k).toNat - 48 = k := by
  interval_cases k <;> rfl

theorem dash_mem_toDigitsCore (fuel n : Nat) (ds : List Char)
    (h : '-' ∈ Nat.toDigitsCore 10 fuel n ds) : '-' ∈ ds := by
  induction fuel generalizing n ds with
  | zero => simpa [Nat.toDigitsCore] using h
  | succ fuel ih =>
    have hd := digitChar_ne_dash (n % 10) (Nat.mod_lt _ (by decide))
    simp only [Nat.toDigitsCore] at h
    split_ifs at h with h0
    · rcases List.mem_cons.1 h with e | e
      · exact absurd e.symm hd
      · exact e
    · rcases List.mem_cons.1 (ih _ _ h) with e | e
      · exact absurd e.symm hd
      · exact e

theorem decimalValue_toDigitsCore (fuel n : Nat) (ds : List Char) (h : n < fuel) :
    decimalValue 0 (Nat.toDigitsCore 10 fuel n ds) = decimalValue n ds := by
  induction fuel generalizing n ds with
  | zero => omega
  | succ fuel ih =>
    have hv := digitChar_value (n % 10) (Nat.mod_lt _ (by decide))
    simp only [Nat.toDigitsCore]
    split_ifs with h0
    · have hn : n % 10 = n := by omega
      simp only [decimalValue, List.foldl_cons, Nat.mul_zero, Nat.zero_add]
      rw [hv, hn]
    · rw [ih (n / 10) _ (by omega)]
      simp only [decimalValue, List.foldl_cons, hv]
      congr 1
      omega

theorem toDigits_injective (a b : Nat) (h : Nat.toDigits 10 a = Nat.toDigits 10 b) : a = b := by
  have ha := decimalValue_toDigitsCore (a + 1) a [] (by omega)
  have hb := decimalValue_toDigitsCore (b + 1) b [] (by omega)
  unfold Nat.toDigits at h
  rw [h, hb] at ha
  simpa [decimalValue] using ha.symm

theorem append_dash_inj (l1 l2 r1 r2 : List Char) (h1 : '-' ∉ l1) (h2 : '-' ∉ l2)
    (h : l1 ++ '-' :: r1 = l2 ++ '-' :: r2) : l1 = l2 ∧ r1 = r2 := by
  induction l1 generalizing l2 with
  | nil =>
    cases l2 with
    | nil => simpa using h
    | cons b l2 =>
      simp only [List.nil_append, List.cons_append, List.cons.injEq] at h
      exact absurd (by rw [← h.1]; exact List.mem_cons_self _ _) h2
  | cons a l1 ih =>
    cases l2 with
    | nil =>
      simp only [List.nil_append, List.cons_append, List.cons.injEq] at h
      exact absurd (by rw [h.1]; exact List.mem_cons_self _ _) h1
    | cons b l2 =>
      simp only [List.cons_append, List.cons.injEq] at h
      obtain ⟨e1, e2⟩ := ih l2 (fun hm => h1 (List.mem_cons_of_mem _ hm))
        (fun hm => h2 (List.mem_cons_of_mem _ hm)) h.2
      exact ⟨by rw [h.1, e1], e2⟩

theorem storedName_data (t : Nat) (o : String) :
    (storedName t o).data = Nat.toDigits 10 t ++ '-' :: o.data := by
  simp only [storedName, String.data_append, List.append_assoc]
  rfl

/-- C14: the file-name scheme `Date.now() + "-" + originalname` of the storage
engines other than the certificate one is injective: two stored names are equal
only when the timestamps are equal and the original names are equal, also when
the original names contain "-" or digits. -/
theorem storedName_injective (t1 t2 : Nat) (o1 o2 : String)
    (h : storedName t1 o1 = storedName t2 o2) : t1 = t2 ∧ o1 = o2 := by
  have hd : (storedName t1 o1).data = (storedName t2 o2).data := by rw [h]
  rw [storedName_data, storedName_data] at hd
  obtain ⟨e1, e2⟩ := append_dash_inj _ _ _ _
    (fun hm => by simpa using dash_mem_toDigitsCore _ _ _ hm)
    (fun hm => by simpa using dash_mem_toDigitsCore _ _ _ hm) hd
  exact ⟨toDigits_injective t1 t2 e1, String.ext e2⟩

/-- C14, witness: the stored names of two uploads at the millisecond 1700000000000
whose original names contain "-" and digits. -/
theorem storedName_injective_witness :
    storedName 1700000000000 "12-a-1.jpg" = storedName 1700000000000 "12-a-1.jpg" ∧
    ((1700000000000 : Nat) = 1700000000000 ∧ "12-a-1.jpg" = "12-a-1.jpg") :=
  ⟨rfl, storedName_injective 1700000000000 1700000000000 "12-a-1.jpg" "12-a-1.jpg" rfl⟩

end Khalid
